import Mathlib

set_option maxHeartbeats 1000000

namespace Blixemel

/-- Characters of a string literal; strings are modelled as lists of characters
throughout, mirroring Python str values. -/
abbrev chars (s : String) : List Char := s.toList

/-- Digit character of a decimal digit, as Python's str() prints numbers. -/
def digitChar : Nat → Char
  | 0 => '0'
  | 1 => '1'
  | 2 => '2'
  | 3 => '3'
  | 4 => '4'
  | 5 => '5'
  | 6 => '6'
  | 7 => '7'
  | 8 => '8'
  | _ => '9'

/-- Numeric value of a decimal digit character, none for any other character. -/
def charDigit (c : Char) : Option Nat :=
  if c = '0' then some 0
  else if c = '1' then some 1
  else if c = '2' then some 2
  else if c = '3' then some 3
  else if c = '4' then some 4
  else if c = '5' then some 5
  else if c = '6' then some 6
  else if c = '7' then some 7
  else if c = '8' then some 8
  else if c = '9' then some 9
  else none

def isDigitCh (c : Char) : Bool := (charDigit c).isSome

/-- Left-to-right option-valued map over a list, failing when any element fails.
Models a Python list comprehension over a fallible conversion such as float(x):
the first raising element makes the whole comprehension raise. -/
def optList {α β : Type} (f : α → Option β) : List α → Option (List β)
  | [] => some []
  | a :: as =>
    match f a, optList f as with
    | some b, some bs => some (b :: bs)
    | _, _ => none

/-- Value of a most-significant-first decimal digit list. -/
def decimalVal (ds : List Nat) : Nat := ds.foldl (fun a d => 10 * a + d) 0

/-- Numeric value of a digit string, none when a character is not a digit. -/
def charsToNat (cs : List Char) : Option Nat := (optList charDigit cs).map decimalVal

def natToCharsAux : Nat → Nat → List Char
  | 0, _ => []
  | fuel + 1, n => if n = 0 then [] else natToCharsAux fuel (n / 10) ++ [digitChar (n % 10)]

/-- Decimal digit string of a natural number, as Python's str() prints it. -/
def natToChars (n : Nat) : List Char := if n = 0 then ['0'] else natToCharsAux (n + 1) n

/-- Model of Python float values as exact decimal numbers: an integer mantissa m
and a count e of fractional digits, the numeric value being m / 10 ^ e. The
host's floats print and re-read exactly (repr round trip), which this decimal
model captures without binary floating point. -/
structure PyFloat where
  m : Int
  e : Nat
deriving DecidableEq, Repr

/-- Python str() on an int. -/
def printPyInt (i : Int) : List Char :=
  if i < 0 then '-' :: natToChars i.natAbs else natToChars i.natAbs

/-- Digits-only part of Python int() parsing. -/
def parseNatAll (cs : List Char) : Option Nat :=
  if cs.isEmpty then none
  else if cs.all isDigitCh then charsToNat cs else none

/-- Model of Python int() on a string: an optional sign then decimal digits;
anything else raises, modelled as none. -/
def parsePyInt (cs : List Char) : Option Int :=
  match cs with
  | [] => none
  | c :: rest =>
    if c = '-' then (parseNatAll rest).map (fun n => -(Int.ofNat n))
    else if c = '+' then (parseNatAll rest).map (fun n => Int.ofNat n)
    else (parseNatAll (c :: rest)).map (fun n => Int.ofNat n)

/-- Unsigned part of Python float() parsing: digits, optionally a point and
more digits, with at least one digit overall. -/
def parseUFloat (cs : List Char) : Option PyFloat :=
  if (cs.dropWhile isDigitCh).isEmpty then
    if (cs.takeWhile isDigitCh).isEmpty then none
    else (charsToNat (cs.takeWhile isDigitCh)).map (fun n => PyFloat.mk (n : Int) 0)
  else if (cs.dropWhile isDigitCh).headI = '.' then
    if ((cs.dropWhile isDigitCh).tail).all isDigitCh then
      if (cs.takeWhile isDigitCh).isEmpty ∧ ((cs.dropWhile isDigitCh).tail).isEmpty then none
      else
        (charsToNat ((cs.takeWhile isDigitCh) ++ (cs.dropWhile isDigitCh).tail)).map
          (fun n => PyFloat.mk (n : Int) ((cs.dropWhile isDigitCh).tail).length)
    else none
  else none

/-- Model of Python float() on a string: optional sign then an unsigned decimal;
malformed text raises, modelled as none. -/
def parsePyFloat (cs : List Char) : Option PyFloat :=
  match cs with
  | [] => none
  | c :: rest =>
    if c = '-' then (parseUFloat rest).map (fun f => PyFloat.mk (-f.m) f.e)
    else if c = '+' then parseUFloat rest
    else parseUFloat (c :: rest)

/-- Python str() on a float of this decimal model: the mantissa's digits with a
point inserted e digits from the right, zero padded when needed. -/
def printPyFloat (f : PyFloat) : List Char :=
  if f.e = 0 then printPyInt f.m
  else
    (if f.m < 0 then ['-'] else []) ++
    ((List.replicate (f.e + 1 - (natToChars f.m.natAbs).length) '0' ++
        natToChars f.m.natAbs).take
      ((List.replicate (f.e + 1 - (natToChars f.m.natAbs).length) '0' ++
          natToChars f.m.natAbs).length - f.e) ++
     '.' ::
     (List.replicate (f.e + 1 - (natToChars f.m.natAbs).length) '0' ++
        natToChars f.m.natAbs).drop
      ((List.replicate (f.e + 1 - (natToChars f.m.natAbs).length) '0' ++
          natToChars f.m.natAbs).length - f.e))

/-- Python value_str.split on a comma: the empty string yields one empty part. -/
def splitComma : List Char → List (List Char)
  | [] => [[]]
  | c :: rest =>
    if c = ',' then [] :: splitComma rest
    else
      match splitComma rest with
      | [] => [[c]]
      | h :: t => (c :: h) :: t

/-- Python comma.join over a list of strings. -/
def joinComma : List (List Char) → List Char
  | [] => []
  | [p] => p
  | p :: q :: rest => p ++ ',' :: joinComma (q :: rest)

/-- Python substring membership test, pat in s. -/
def strContains (s pat : List Char) : Bool :=
  match s with
  | [] => pat.isEmpty
  | c :: rest => pat.isPrefixOf (c :: rest) || strContains rest pat

/-- Model of the Python values flowing through the codec: scalars, the four
mathutils structural values, lists, the None object, and host entities that a
pointer property references by name. -/
inductive PyValue : Type
  | str (s : List Char)
  | bool (b : Bool)
  | int (i : Int)
  | float (f : PyFloat)
  | vec (xs : List PyFloat)
  | euler (xs : List PyFloat)
  | quat (xs : List PyFloat)
  | matrix (rows : List (List PyFloat))
  | pylist (xs : List PyValue)
  | pynone
  | entity (name : List Char)

/-- Python truthiness of a modelled value. -/
def pyTruthy : PyValue → Bool
  | .str s => !s.isEmpty
  | .bool b => b
  | .int i => decide (i ≠ 0)
  | .float f => decide (f.m ≠ 0)
  | .vec _ => true
  | .euler _ => true
  | .quat _ => true
  | .matrix _ => true
  | .pylist xs => !xs.isEmpty
  | .pynone => false
  | .entity _ => true

/-- Python str() on scalar values; the textual repr of containers and host
objects is abstracted, as no exported property depends on it. -/
def pyStrScalar : PyValue → List Char
  | .str s => s
  | .bool b => if b then chars "True" else chars "False"
  | .int i => printPyInt i
  | .float f => printPyFloat f
  | .pynone => chars "None"
  | _ => chars "<object>"

/-- Python str() including a shallow list repr. -/
def pyStr (v : PyValue) : List Char :=
  match v with
  | .pylist xs => '[' :: (joinComma (xs.map pyStrScalar)) ++ [']']
  | w => pyStrScalar w

/-- Model of the mathutils.Vector constructor on a flat numeric sequence:
any arity of at least two is accepted; fewer components raise. -/
def mkVector (xs : List PyFloat) : Option PyValue :=
  if 2 ≤ xs.length then some (.vec xs) else none

/-- Model of the mathutils.Euler constructor: exactly three angles, else raise. -/
def mkEuler (xs : List PyFloat) : Option PyValue :=
  if xs.length = 3 then some (.euler xs) else none

/-- Model of the mathutils.Quaternion constructor on a flat sequence: exactly
four components, else raise. -/
def mkQuat (xs : List PyFloat) : Option PyValue :=
  if xs.length = 4 then some (.quat xs) else none

/-- Model of the mathutils.Matrix constructor: two to four rows of one equal
length between two and four, anything else raises. -/
def mkMatrix (rows : List (List PyFloat)) : Option PyValue :=
  match rows with
  | [] => none
  | r :: _ =>
    if 2 ≤ rows.length ∧ rows.length ≤ 4 ∧ 2 ≤ r.length ∧ r.length ≤ 4 ∧
        rows.all (fun q => q.length = r.length) then some (.matrix rows)
    else none

/-- The float list of a comma joined value string, none when any part fails
to parse as a float. -/
def floatParts (v : List Char) : Option (List PyFloat) := optList parsePyFloat (splitComma v)

def toExc {α : Type} : Option α → Except Unit α
  | some a => .ok a
  | none => .error ()

/-- The body of import.parse_typed_value inside its try block; an error is a
Python exception reaching the bare except handler. Branch order follows the
source: the four structural subtypes first, then the scalar type tags, then
the ARRAY substring test, and finally the fall-through returning the string. -/
def pvBody (v ts st : List Char) : Except Unit PyValue :=
  if st = chars "VECTOR" then
    match floatParts v with
    | none => .error ()
    | some xs => toExc (mkVector xs)
  else if st = chars "EULER" then
    match floatParts v with
    | none => .error ()
    | some xs => toExc (mkEuler xs)
  else if st = chars "QUATERNION" then
    match floatParts v with
    | none => .error ()
    | some xs => toExc (mkQuat xs)
  else if st = chars "MATRIX_4X4" then
    match floatParts v with
    | none => .error ()
    | some xs =>
      toExc (mkMatrix [xs.take 4, (xs.drop 4).take 4, (xs.drop 8).take 4, (xs.drop 12).take 4])
  else if ts = chars "STRING" then .ok (.str v)
  else if ts = chars "BOOLEAN" then
    if v = chars "True" then .ok (.bool true) else .ok (.bool false)
  else if ts = chars "INT" then toExc ((parsePyInt v).map PyValue.int)
  else if ts = chars "FLOAT" then toExc ((parsePyFloat v).map PyValue.float)
  else if strContains ts (chars "ARRAY") then
    if v.isEmpty then .ok (.pylist [])
    else if strContains ts (chars "FLOAT") then
      toExc ((optList parsePyFloat (splitComma v)).map
        (fun xs => PyValue.pylist (xs.map PyValue.float)))
    else
      toExc ((optList parsePyInt (splitComma v)).map
        (fun xs => PyValue.pylist (xs.map PyValue.int)))
  else .ok (.str v)

/-- Model of import.parse_typed_value: a missing value or the literal None text
decodes to the absent sentinel, and any exception inside the body is turned
into the absent sentinel by the bare except. -/
def parse_typed_value (v : Option (List Char)) (ts st : List Char) : Option PyValue :=
  match v with
  | none => none
  | some s => if s = chars "None" then none else (pvBody s ts st).toOption

/-- Result of reading one RNA property off a live entity; err models getattr
raising, which _get_prop_info catches. -/
inductive ReadRes : Type
  | ok (v : PyValue)
  | err

/-- Model of export._get_prop_info: the (value string, type tag, structural
subtype) triple written for one property. Mathutils values take a structural
subtype regardless of the declared type; pointers write the target's name or
the None literal; array types join their elements; everything else is str(). -/
def get_prop_info (r : ReadRes) (rtype : List Char) : List Char × List Char × List Char :=
  match r with
  | .err => ([], chars "UNKNOWN", [])
  | .ok v =>
    match v with
    | .vec xs => (joinComma (xs.map printPyFloat), rtype, chars "VECTOR")
    | .euler xs => (joinComma (xs.map printPyFloat), rtype, chars "EULER")
    | .quat xs => (joinComma (xs.map printPyFloat), rtype, chars "QUATERNION")
    | .matrix rows =>
      (joinComma ((rows.flatten).map printPyFloat), rtype,
        if rows.length = 4 then chars "MATRIX_4X4" else chars "MATRIX")
    | w =>
      if rtype = chars "POINTER" then
        if pyTruthy w then
          match w with
          | .entity n => (n, rtype, [])
          | _ => ([], chars "UNKNOWN", [])
        else (chars "None", rtype, [])
      else if rtype = chars "FLOAT_ARRAY" ∨ rtype = chars "INT_ARRAY" ∨
          rtype = chars "BOOLEAN_ARRAY" then
        match w with
        | .pylist xs => (joinComma (xs.map pyStrScalar), rtype, [])
        | .str s => (joinComma (s.map (fun c => [c])), rtype, [])
        | u => (pyStr u, rtype, [])
      else (pyStr w, rtype, [])

/-- Encode a live value through _get_prop_info and decode the produced triple
with parse_typed_value, exactly as an export followed by an import does. -/
def round_trip (v : PyValue) (rtype : List Char) : Option PyValue :=
  parse_typed_value (some (get_prop_info (.ok v) rtype).1)
    (get_prop_info (.ok v) rtype).2.1 (get_prop_info (.ok v) rtype).2.2

/-- One Prop element of the document: its name, type, value and optional
structure_type attributes, the latter defaulting to the empty string as in
prop.get with a default. -/
structure PropXml where
  pname : List Char
  ptype : List Char
  pvalue : Option (List Char)
  structure_type : List Char

/-- The per-object entry of HIERARCHY_MAP filled by import.apply_xml_properties.
A field holding none corresponds to the Python slot holding None; transforms
collects the local transform components in document order. -/
structure HierData where
  parent : Option PyValue := none
  ptype : Option PyValue := none
  bone : Option PyValue := none
  bhead : Option PyValue := none
  btail : Option PyValue := none
  inv : Option PyValue := none
  world_matrix : Option PyValue := none
  transforms : List (List Char × Option PyValue) := []
  rotation_mode : Option PyValue := none

/-- State threaded through one apply_xml_properties call: the hierarchy entry,
the deferred pointer links queued for this object, and the direct setattr
attempts of the final else branch. -/
structure ApplyState where
  hdata : HierData := {}
  deferred : List (List Char × Option PyValue) := []
  direct : List (List Char × Option PyValue) := []

/-- The property names apply_xml_properties skips outright. -/
def skipNames : List (List Char) :=
  [chars "name", chars "type", chars "is_readonly", chars "data",
   chars "matrix_basis", chars "matrix_local", chars "matrix_custom"]

/-- The four local transform component names. -/
def localTransformNames : List (List Char) :=
  [chars "location", chars "rotation_euler", chars "rotation_quaternion", chars "scale"]

/-- One iteration of the Prop loop in import.apply_xml_properties, with the
source's dispatch order: the skip list, the named hierarchy fields, the local
transform components (stored only while no world matrix has been recorded),
then pointer deferral, then best effort setattr. -/
def apply_prop (st : ApplyState) (p : PropXml) : ApplyState :=
  let val := parse_typed_value p.pvalue p.ptype p.structure_type
  if p.pname ∈ skipNames then st
  else if p.pname = chars "parent" then { st with hdata := { st.hdata with parent := val } }
  else if p.pname = chars "parent_type" then { st with hdata := { st.hdata with ptype := val } }
  else if p.pname = chars "parent_bone" then { st with hdata := { st.hdata with bone := val } }
  else if p.pname = chars "head" then { st with hdata := { st.hdata with bhead := val } }
  else if p.pname = chars "tail" then { st with hdata := { st.hdata with btail := val } }
  else if p.pname = chars "matrix_parent_inverse" then
    { st with hdata := { st.hdata with inv := val } }
  else if p.pname = chars "matrix_world" then
    { st with hdata := { st.hdata with world_matrix := val } }
  else if p.pname = chars "rotation_mode" then
    { st with hdata := { st.hdata with rotation_mode := val } }
  else if p.pname ∈ localTransformNames then
    if st.hdata.world_matrix.isNone then
      { st with hdata := { st.hdata with transforms := st.hdata.transforms ++ [(p.pname, val)] } }
    else st
  else if p.ptype = chars "POINTER" then { st with deferred := st.deferred ++ [(p.pname, val)] }
  else { st with direct := st.direct ++ [(p.pname, val)] }

/-- Model of import.apply_xml_properties on one object's Prop list, starting
from a fresh HIERARCHY_MAP entry. -/
def apply_xml_properties (props : List PropXml) : ApplyState :=
  props.foldl apply_prop {}

/-- The parse of the last matrix_world record of a Prop list, if any record
with that name occurs. -/
def last_world_matrix (props : List PropXml) : Option (Option PyValue) :=
  props.foldl
    (fun acc p =>
      if p.pname = chars "matrix_world" then
        some (parse_typed_value p.pvalue p.ptype p.structure_type)
      else acc)
    none

/-- Model of setattr for the four local transform properties of a host object:
a 3 component vector or list for location and scale, a 3 angle Euler value for
rotation_euler, a 4 component quaternion value for rotation_quaternion.
Anything else, including the absent sentinel, raises; the caller catches the
exception and skips the component. -/
def set_transform_ok : List Char → Option PyValue → Bool
  | _, none => false
  | nm, some (PyValue.vec xs) =>
    decide ((nm = chars "location" ∨ nm = chars "scale") ∧ xs.length = 3)
  | nm, some (PyValue.euler xs) => decide (nm = chars "rotation_euler" ∧ xs.length = 3)
  | nm, some (PyValue.quat xs) => decide (nm = chars "rotation_quaternion" ∧ xs.length = 4)
  | nm, some (PyValue.pylist xs) =>
    decide ((nm = chars "location" ∨ nm = chars "scale") ∧ xs.length = 3)
  | _, some _ => false

/-- Model of assigning matrix_world on a host object: only a 4 by 4 matrix
value is accepted, anything else raises and is caught. -/
def set_matrix_world_ok : Option PyValue → Bool
  | some (PyValue.matrix rows) => decide (rows.length = 4 ∧ ∀ rrow ∈ rows, rrow.length = 4)
  | _ => false

/-- The transform pass of import.resolve_hierarchy for one object, as the list
of successful attribute assignments it performs, in order: rotation_mode when
recorded; then either the world matrix alone (when one was recorded) or each
stored local component in recorded order, each through its guarded setattr. -/
def resolve_transform (d : HierData) : List (List Char × PyValue) :=
  (match d.rotation_mode with
   | some v => [(chars "rotation_mode", v)]
   | none => []) ++
  match d.world_matrix with
  | some wm => if set_matrix_world_ok (some wm) then [(chars "matrix_world", wm)] else []
  | none =>
    d.transforms.filterMap
      (fun pv =>
        match pv.2 with
        | some v => if set_transform_ok pv.1 (some v) then some (pv.1, v) else none
        | none => none)

/-- The attribute assignments the parent pass of import.resolve_hierarchy can
perform on one object. -/
inductive ParentAssign : Type
  | setParent (pid : Nat)
  | setParentType (v : PyValue)
  | setParentTypeBone
  | setParentBone (v : PyValue)
  | setHead (v : PyValue)
  | setTail (v : PyValue)
  | setInverse (v : PyValue)

def is_set_parent : ParentAssign → Bool
  | .setParent _ => true
  | _ => false

/-- The parent pass of import.resolve_hierarchy for one object: a truthy parent
name is looked up among objects; on a hit the parent is assigned only when the
found object is not the object itself, while parent type, bone, and inverse
fields are applied regardless; on a miss a warning is printed and nothing is
assigned. A non string truthy parent value makes the registry lookup raise,
modelled as the error case. hasHead and hasTail model hasattr on the object;
the recorded head and tail values default to the None object. -/
def resolve_parent (objId : Nat) (d : HierData) (reg : List (List Char × Nat))
    (hasHead hasTail : Bool) : Except Unit (List ParentAssign × List (List Char)) :=
  match d.parent with
  | none => .ok ([], [])
  | some v =>
    if pyTruthy v then
      match v with
      | PyValue.str s =>
        match reg.lookup s with
        | some pid =>
          .ok ((if pid ≠ objId then [ParentAssign.setParent pid] else []) ++
               (match d.ptype with
                | some tv => if pyTruthy tv then [ParentAssign.setParentType tv] else []
                | none => []) ++
               (match d.bone with
                | some bv =>
                  if pyTruthy bv then
                    [ParentAssign.setParentTypeBone, ParentAssign.setParentBone bv] ++
                    (if hasHead then [ParentAssign.setHead (d.bhead.getD PyValue.pynone)] else []) ++
                    (if hasTail then [ParentAssign.setTail (d.btail.getD PyValue.pynone)] else [])
                  else []
                | none => []) ++
               (match d.inv with
                | some iv => if pyTruthy iv then [ParentAssign.setInverse iv] else []
                | none => []),
               [])
        | none => .ok ([], [chars "WARNING: parent not found"])
      | _ => .error ()
    else .ok ([], [])

/-- The assignments of a parent pass outcome, empty when the pass raised. -/
def assigns_of (r : Except Unit (List ParentAssign × List (List Char))) : List ParentAssign :=
  match r with
  | .ok p => p.1
  | .error _ => []

/-- One RNA property slot of a live entity as the export walker sees it:
its identifier, declared type, read only flag, and the outcome of reading it. -/
structure RnaProp where
  identifier : List Char
  rtype : List Char
  is_readonly : Bool
  read : ReadRes

/-- The slice of a live entity that export._write_rna_properties consults:
the optional transform attributes driving the explicit transform block, and
the entity's RNA property list driving the generic loop. -/
structure BEntity where
  rotation_mode : Option (List Char)
  matrix_world : Option (List (List PyFloat))
  rotation_euler : Option (List PyFloat)
  rotation_quaternion : Option (List PyFloat)
  rna_props : List RnaProp

/-- getattr with the XYZ default used for the rotation mode. -/
def rotModeStr (e : BEntity) : List Char :=
  match e.rotation_mode with
  | some s => s
  | none => chars "XYZ"

/-- The explicit transform block of export._write_rna_properties: it always
emits rotation_mode, and emits matrix_world, rotation_euler and
rotation_quaternion whenever the entity has those attributes, before and
independently of the generic property loop. -/
def explicit_transform_props (e : BEntity) : List PropXml :=
  [⟨chars "rotation_mode", chars "STRING", some (rotModeStr e), []⟩] ++
  (match e.matrix_world with
   | some rows =>
     [⟨chars "matrix_world", chars "MATRIX_4X4",
       some (joinComma ((rows.flatten).map printPyFloat)), chars "MATRIX_4X4"⟩]
   | none => []) ++
  (match e.rotation_euler with
   | some xs =>
     [⟨chars "rotation_euler", chars "EULER",
       some (joinComma (xs.map printPyFloat)), chars "EULER"⟩]
   | none => []) ++
  (match e.rotation_quaternion with
   | some xs =>
     [⟨chars "rotation_quaternion", chars "QUATERNION",
       some (joinComma (xs.map printPyFloat)), chars "QUATERNION"⟩]
   | none => [])

/-- The skip set of the generic loop: the base exclusions plus the rotation
representations that do not match the declared rotation mode. -/
def skip_props_for (rot_mode : List Char) : List (List Char) :=
  [chars "matrix_basis", chars "matrix_local", chars "matrix_custom", chars "matrix",
   chars "is_readonly", chars "data"] ++
  (if rot_mode = chars "QUATERNION" then [chars "rotation_euler", chars "rotation_axis_angle"]
   else if rot_mode = chars "AXIS_ANGLE" then
     [chars "rotation_euler", chars "rotation_quaternion"]
   else [chars "rotation_quaternion", chars "rotation_axis_angle"])

/-- One iteration of the generic property loop: skip read only and skipped
identifiers, read the property triple, skip pointer records whose value text
is the None literal or empty, else emit the Prop record. -/
def emit_rna_prop (skips : List (List Char)) (p : RnaProp) : Option PropXml :=
  if p.is_readonly || decide (p.identifier ∈ skips) then none
  else
    if (get_prop_info p.read p.rtype).2.1 = chars "POINTER" ∧
        ((get_prop_info p.read p.rtype).1 = chars "None" ∨
         (get_prop_info p.read p.rtype).1 = []) then none
    else
      some ⟨p.identifier, (get_prop_info p.read p.rtype).2.1,
        some (get_prop_info p.read p.rtype).1, (get_prop_info p.read p.rtype).2.2⟩

/-- The generic loop's contribution to the Properties element. -/
def rna_loop_props (e : BEntity) : List PropXml :=
  e.rna_props.filterMap (emit_rna_prop (skip_props_for (rotModeStr e)))

/-- Model of export._write_rna_properties: the Prop records of the Properties
element it emits, the explicit transform block first, then the generic loop. -/
def write_rna_properties (e : BEntity) : List PropXml :=
  explicit_transform_props e ++ rna_loop_props e

/-- One node of a shading graph: its type tag, bound image name when it is an
image sampler, and its input socket names in order. -/
structure SGNode where
  ntype : List Char
  image : Option (List Char)
  inputNames : List (List Char)

/-- A shading graph over n nodes: the nodes, and for each (node, input index)
the source node of the input's first link, none when the input is unlinked.
Indexing a socket that the node does not have is modelled as unlinked. -/
structure SGraph (n : Nat) where
  nodes : Fin n → SGNode
  linkFrom : Fin n → Nat → Option (Fin n)

/-- Index of the first occurrence of a name in a socket name list. -/
def firstIdx (l : List (List Char)) (x : List Char) : Option Nat :=
  match l with
  | [] => none
  | a :: as => if a = x then some 0 else (firstIdx as x).map (fun j => j + 1)

def passKinds : List (List Char) :=
  [chars "NORMAL_MAP", chars "BUMP", chars "MAPPING", chars "CURVE_RGB",
   chars "VALTORGB", chars "HUE_SAT"]

def mixKinds : List (List Char) := [chars "MIX_RGB", chars "MIX_SHADER", chars "ADD_SHADER"]

def sepKinds : List (List Char) := [chars "SEPARATE_COLOR", chars "SEPARATE_RGB", chars "SEPARATE_XYZ"]

/-- The kind specific choice of which input socket export._find_source_image
continues through: input 0 for a reroute; the Color, else Factor, else first
input for the adjustment kinds; the highest priority connected input among
inputs 2 then 1 for the mix kinds; the first input for the separate kinds;
no continuation otherwise. -/
def nextSocket {n : Nat} (g : SGraph n) (i : Fin n) : Option Nat :=
  if (g.nodes i).ntype = chars "REROUTE" then some 0
  else if (g.nodes i).ntype ∈ passKinds then
    match firstIdx (g.nodes i).inputNames (chars "Color") with
    | some j => some j
    | none =>
      match firstIdx (g.nodes i).inputNames (chars "Factor") with
      | some j => some j
      | none => if 0 < (g.nodes i).inputNames.length then some 0 else none
  else if (g.nodes i).ntype ∈ mixKinds then
    if 2 < (g.nodes i).inputNames.length ∧ (g.linkFrom i 2).isSome then some 2
    else if 1 < (g.nodes i).inputNames.length ∧ (g.linkFrom i 1).isSome then some 1
    else none
  else if (g.nodes i).ntype ∈ sepKinds then
    if 0 < (g.nodes i).inputNames.length then some 0 else none
  else none

/-- Model of export._find_source_image together with an explicit step count,
one step per node taken off the socket's link chain. An unlinked socket gives
no source; a node already in the visited set gives no source immediately; an
image sampler gives its image; otherwise the traversal continues through the
kind specific input after adding the node to the visited set. -/
def find_source_image {n : Nat} (g : SGraph n) (link : Option (Fin n))
    (visited : Finset (Fin n)) : Option (List Char) × Nat :=
  match link with
  | none => (none, 0)
  | some i =>
    if h : i ∈ visited then (none, 0)
    else if (g.nodes i).ntype = chars "TEX_IMAGE" then ((g.nodes i).image, 1)
    else
      match nextSocket g i with
      | none => (none, 1)
      | some k =>
        let p := find_source_image g (g.linkFrom i k) (insert i visited)
        (p.1, p.2 + 1)
termination_by n - visited.card
decreasing_by
  have h1 : (insert i visited).card = visited.card + 1 := Finset.card_insert_of_not_mem h
  have h2 : (insert i visited).card ≤ n := by
    have h3 := Finset.card_le_univ (insert i visited)
    simpa using h3
  omega

/-- One Scene element's attributes that importFromXML reads directly. -/
structure SceneNode where
  sname : Option (List Char)
  frame_start : Option (List Char)
  frame_end : Option (List Char)

/-- The two top level sections of the document as importFromXML finds them:
none models a missing element, and an empty child list models an element that
is falsy under ElementTree's emptiness based truth value. -/
structure XmlDoc where
  libraries : Option (List (List Char))
  scenes : Option (List SceneNode)

/-- Model of the section gate of import.import_libraries: a missing Libraries
element, or one with no children, returns immediately importing nothing, with
no error raised; otherwise the children are processed in document order. The
per kind reconstruction is summarised by the returned child tags. -/
def import_libraries (doc : XmlDoc) : List (List Char) :=
  match doc.libraries with
  | none => []
  | some kids => if kids.isEmpty then [] else kids

/-- Parsing of a frame attribute in the scene loop: a present, nonempty text is
fed to int(), whose failure raises out of importFromXML uncaught. -/
def parseFrameAttr (a : Option (List Char)) : Except (List Char) Unit :=
  match a with
  | none => .ok ()
  | some v =>
    if v.isEmpty then .ok ()
    else
      match parsePyInt v with
      | some _ => .ok ()
      | none => .error (chars "invalid literal for int")

/-- The per scene body of importFromXML's scene loop. -/
def scene_phase (s : SceneNode) : Except (List Char) (List Char) :=
  match parseFrameAttr s.frame_start with
  | .error e => .error e
  | .ok _ =>
    match parseFrameAttr s.frame_end with
    | .error e => .error e
    | .ok _ => .ok (s.sname.getD [])

def scenes_phase : List SceneNode → Except (List Char) (List (List Char))
  | [] => .ok []
  | s :: rest =>
    match scene_phase s with
    | .error e => .error e
    | .ok nm =>
      match scenes_phase rest with
      | .error e => .error e
      | .ok nms => .ok (nm :: nms)

/-- What one import run did: the library children processed, the scene names
processed, and whether the two resolution passes ran (they always do when the
run reaches them). -/
structure RunTrace where
  libItems : List (List Char)
  sceneNames : List (List Char)
  hierarchyResolved : Bool
  linksResolved : Bool

/-- Model of import.importFromXML after the document is parsed: libraries are
imported (with the silent gate), the Scenes section is skipped when missing or
empty, every present scene is processed in order, then both resolution passes
run and the import completes. An error value is an exception propagating out
of importFromXML. -/
def importFromXML (doc : XmlDoc) : Except (List Char) RunTrace :=
  match doc.scenes with
  | none => .ok ⟨import_libraries doc, [], true, true⟩
  | some ss =>
    if ss.isEmpty then .ok ⟨import_libraries doc, [], true, true⟩
    else
      match scenes_phase ss with
      | .error e => .error e
      | .ok names => .ok ⟨import_libraries doc, names, true, true⟩

/-- The kind of a named registry of the host datablock store. -/
inductive EntKind : Type
  | object
  | mesh
  | material
  | action
  | armature
  | camera
  | light
  | image
deriving DecidableEq, Repr

/-- The eight named entity registries import.resolve_links searches, each an
association list from name to the entity's numeric handle. -/
structure Registries where
  objects : List (List Char × Nat)
  meshes : List (List Char × Nat)
  materials : List (List Char × Nat)
  actions : List (List Char × Nat)
  armatures : List (List Char × Nat)
  cameras : List (List Char × Nat)
  lights : List (List Char × Nat)
  images : List (List Char × Nat)

/-- The registry search of import.resolve_links: objects, then meshes,
materials, actions, armatures, cameras, lights, images, accepting the first
registry that knows the name. -/
def lookup_target (r : Registries) (nm : List Char) : Option (EntKind × Nat) :=
  match r.objects.lookup nm with
  | some e => some (.object, e)
  | none =>
    match r.meshes.lookup nm with
    | some e => some (.mesh, e)
    | none =>
      match r.materials.lookup nm with
      | some e => some (.material, e)
      | none =>
        match r.actions.lookup nm with
        | some e => some (.action, e)
        | none =>
          match r.armatures.lookup nm with
          | some e => some (.armature, e)
          | none =>
            match r.cameras.lookup nm with
            | some e => some (.camera, e)
            | none =>
              match r.lights.lookup nm with
              | some e => some (.light, e)
              | none =>
                match r.images.lookup nm with
                | some e => some (.image, e)
                | none => none

/-- Model of import.resolve_links over the deferred link list: each link
(owner handle, property name, target name) is processed exactly once, in
order; a found target produces one setattr attempt (whose own failure the
source swallows); a name no registry knows produces nothing — the source
prints no message in that case, so the warning list is always empty. -/
def resolve_links (r : Registries) (links : List (Nat × List Char × List Char)) :
    List (Nat × List Char × EntKind × Nat) × List (List Char) :=
  (links.filterMap (fun l => (lookup_target r l.2.2).map (fun t => (l.1, l.2.1, t))), [])

theorem charDigit_digitChar (d : Nat) (hd : d < 10) : charDigit (digitChar d) = some d := by
  interval_cases d <;> rfl

theorem isDigitCh_digitChar (d : Nat) : isDigitCh (digitChar d) = true := by
  unfold digitChar
  split <;> rfl

theorem optList_append {α β : Type} (f : α → Option β) (xs ys : List α) :
    optList f (xs ++ ys) =
      match optList f xs, optList f ys with
      | some bs, some cs => some (bs ++ cs)
      | _, _ => none := by
  induction xs with
  | nil =>
    simp only [List.nil_append, optList]
    cases optList f ys <;> rfl
  | cons a as ih =>
    simp only [List.cons_append, optList, List.append_eq, ih]
    cases f a <;> cases optList f as <;> cases optList f ys <;> rfl

theorem optList_map_roundtrip {α β : Type} (f : β → Option α) (g : α → β) :
    ∀ l : List α, (∀ a ∈ l, f (g a) = some a) → optList f (l.map g) = some l := by
  intro l
  induction l with
  | nil => intro _; rfl
  | cons a as ih =>
    intro h
    simp only [List.map_cons, optList]
    rw [h a (List.mem_cons_self a as), ih (fun b hb => h b (List.mem_cons_of_mem a hb))]

theorem decimalVal_append_digit (ds : List Nat) (d : Nat) :
    decimalVal (ds ++ [d]) = 10 * decimalVal ds + d := by
  simp [decimalVal, List.foldl_append]

theorem charsToNat_append_digit (cs : List Char) (c : Char) (k d : Nat)
    (h1 : charsToNat cs = some k) (h2 : charDigit c = some d) :
    charsToNat (cs ++ [c]) = some (10 * k + d) := by
  unfold charsToNat at h1 ⊢
  rcases Option.map_eq_some'.mp h1 with ⟨ds, hds, hval⟩
  rw [optList_append]
  have hsingle : optList charDigit [c] = some [d] := by
    simp [optList, h2]
  rw [hds, hsingle]
  simp [decimalVal_append_digit, hval]

theorem optList_cons {α β : Type} (f : α → Option β) (a : α) (as : List α) :
    optList f (a :: as) =
      match f a, optList f as with
      | some b, some bs => some (b :: bs)
      | _, _ => none := rfl

theorem charsToNat_cons_zero (cs : List Char) : charsToNat ('0' :: cs) = charsToNat cs := by
  unfold charsToNat
  rw [optList_cons]
  have h0 : charDigit '0' = some 0 := rfl
  rw [h0]
  cases h : optList charDigit cs with
  | none => rfl
  | some ds => simp [decimalVal]

theorem charsToNat_replicate_zero (k : Nat) (cs : List Char) :
    charsToNat (List.replicate k '0' ++ cs) = charsToNat cs := by
  induction k with
  | zero => rfl
  | succ k ih => rw [List.replicate_succ, List.cons_append, charsToNat_cons_zero, ih]

theorem natToCharsAux_all_digits : ∀ (fuel n : Nat),
    ∀ c ∈ natToCharsAux fuel n, isDigitCh c = true := by
  intro fuel
  induction fuel with
  | zero => intro n c hc; simp [natToCharsAux] at hc
  | succ fuel ih =>
    intro n c hc
    unfold natToCharsAux at hc
    by_cases h0 : n = 0
    · rw [if_pos h0] at hc; simp at hc
    · rw [if_neg h0] at hc
      rcases List.mem_append.mp hc with h | h
      · exact ih _ c h
      · rcases List.mem_singleton.mp h with rfl
        exact isDigitCh_digitChar _

theorem natToChars_all_digits (n : Nat) : ∀ c ∈ natToChars n, isDigitCh c = true := by
  intro c hc
  unfold natToChars at hc
  by_cases h0 : n = 0
  · rw [if_pos h0] at hc
    rcases List.mem_singleton.mp hc with rfl
    rfl
  · rw [if_neg h0] at hc
    exact natToCharsAux_all_digits _ _ c hc

theorem charsToNat_natToCharsAux : ∀ (fuel n : Nat), n ≤ fuel →
    charsToNat (natToCharsAux fuel n) = some n := by
  intro fuel
  induction fuel with
  | zero =>
    intro n h
    interval_cases n
    rfl
  | succ fuel ih =>
    intro n h
    by_cases h0 : n = 0
    · subst h0; rfl
    · unfold natToCharsAux
      rw [if_neg h0]
      have hdiv : n / 10 ≤ fuel := by
        have := Nat.div_lt_self (Nat.pos_of_ne_zero h0) (by norm_num : 1 < 10)
        omega
      have h2 : charDigit (digitChar (n % 10)) = some (n % 10) :=
        charDigit_digitChar _ (Nat.mod_lt _ (by norm_num))
      rw [charsToNat_append_digit _ _ _ _ (ih _ hdiv) h2]
      congr 1
      omega

theorem charsToNat_natToChars (n : Nat) : charsToNat (natToChars n) = some n := by
  unfold natToChars
  by_cases h0 : n = 0
  · subst h0; rfl
  · rw [if_neg h0]
    exact charsToNat_natToCharsAux _ _ (Nat.le_succ n)

theorem natToChars_ne_nil (n : Nat) : natToChars n ≠ [] := by
  unfold natToChars
  by_cases h0 : n = 0
  · rw [if_pos h0]; simp
  · rw [if_neg h0]
    unfold natToCharsAux
    rw [if_neg h0]
    simp

theorem ne_of_digit (c x : Char) (h : isDigitCh c = true) (hx : isDigitCh x = false) :
    c ≠ x := by
  intro he
  rw [he, hx] at h
  cases h

theorem parseNatAll_natToChars (n : Nat) : parseNatAll (natToChars n) = some n := by
  unfold parseNatAll
  have hne : (natToChars n).isEmpty = false := by
    cases h : natToChars n with
    | nil => exact absurd h (natToChars_ne_nil n)
    | cons c cs => rfl
  rw [hne]
  simp only [Bool.false_eq_true, if_false]
  have hall : (natToChars n).all isDigitCh = true :=
    List.all_eq_true.mpr (natToChars_all_digits n)
  rw [hall]
  simp [charsToNat_natToChars]

theorem parsePyInt_cons (c : Char) (rest : List Char) :
    parsePyInt (c :: rest) =
      if c = '-' then (parseNatAll rest).map (fun n => -(Int.ofNat n))
      else if c = '+' then (parseNatAll rest).map (fun n => Int.ofNat n)
      else (parseNatAll (c :: rest)).map (fun n => Int.ofNat n) := rfl

theorem parsePyFloat_cons (c : Char) (rest : List Char) :
    parsePyFloat (c :: rest) =
      if c = '-' then (parseUFloat rest).map (fun f => PyFloat.mk (-f.m) f.e)
      else if c = '+' then parseUFloat rest
      else parseUFloat (c :: rest) := rfl

theorem parsePyInt_printPyInt (i : Int) : parsePyInt (printPyInt i) = some i := by
  unfold printPyInt
  by_cases hneg : i < 0
  · rw [if_pos hneg, parsePyInt_cons, if_pos rfl, parseNatAll_natToChars]
    simp only [Option.map_some', Option.some.injEq, Int.ofNat_eq_coe]
    omega
  · rw [if_neg hneg]
    cases hsh : natToChars i.natAbs with
    | nil => exact absurd hsh (natToChars_ne_nil _)
    | cons c cs =>
      have hc : isDigitCh c = true := by
        have hmem := natToChars_all_digits i.natAbs c
        rw [hsh] at hmem
        exact hmem (List.mem_cons_self c cs)
      rw [parsePyInt_cons, if_neg (ne_of_digit c '-' hc rfl), if_neg (ne_of_digit c '+' hc rfl)]
      rw [← hsh, parseNatAll_natToChars]
      simp only [Option.map_some', Option.some.injEq, Int.ofNat_eq_coe]
      omega

theorem takeWhile_append_of_not (p : Char → Bool) :
    ∀ (A : List Char) (b : Char) (B : List Char), (∀ c ∈ A, p c = true) → p b = false →
      (A ++ b :: B).takeWhile p = A := by
  intro A
  induction A with
  | nil => intro b B _ hb; simp [List.takeWhile_cons, hb]
  | cons a as ih =>
    intro b B h hb
    simp only [List.cons_append, List.takeWhile_cons, h a (List.mem_cons_self a as), if_true]
    rw [ih b B (fun c hc => h c (List.mem_cons_of_mem a hc)) hb]

theorem dropWhile_append_of_not (p : Char → Bool) :
    ∀ (A : List Char) (b : Char) (B : List Char), (∀ c ∈ A, p c = true) → p b = false →
      (A ++ b :: B).dropWhile p = b :: B := by
  intro A
  induction A with
  | nil => intro b B _ hb; simp [List.dropWhile_cons, hb]
  | cons a as ih =>
    intro b B h hb
    simp only [List.cons_append, List.dropWhile_cons, h a (List.mem_cons_self a as), if_true]
    exact ih b B (fun c hc => h c (List.mem_cons_of_mem a hc)) hb

theorem takeWhile_all (p : Char → Bool) :
    ∀ (A : List Char), (∀ c ∈ A, p c = true) → A.takeWhile p = A := by
  intro A
  induction A with
  | nil => intro _; rfl
  | cons a as ih =>
    intro h
    simp only [List.takeWhile_cons, h a (List.mem_cons_self a as), if_true]
    rw [ih (fun c hc => h c (List.mem_cons_of_mem a hc))]

theorem dropWhile_all (p : Char → Bool) :
    ∀ (A : List Char), (∀ c ∈ A, p c = true) → A.dropWhile p = [] := by
  intro A
  induction A with
  | nil => intro _; rfl
  | cons a as ih =>
    intro h
    simp only [List.dropWhile_cons, h a (List.mem_cons_self a as), if_true]
    exact ih (fun c hc => h c (List.mem_cons_of_mem a hc))

theorem parseUFloat_digits (cs : List Char) (n : Nat) (hne : cs ≠ [])
    (hall : ∀ c ∈ cs, isDigitCh c = true) (hval : charsToNat cs = some n) :
    parseUFloat cs = some ⟨(n : Int), 0⟩ := by
  unfold parseUFloat
  rw [dropWhile_all _ cs hall, takeWhile_all _ cs hall]
  simp only [List.isEmpty_nil, if_true]
  have hne2 : cs.isEmpty = false := by
    cases cs with
    | nil => exact absurd rfl hne
    | cons c cs' => rfl
  rw [hne2]
  simp [hval]

theorem parseUFloat_point (T R : List Char) (n : Nat) (hT : T ≠ [])
    (hTd : ∀ c ∈ T, isDigitCh c = true) (hRd : ∀ c ∈ R, isDigitCh c = true)
    (hval : charsToNat (T ++ R) = some n) :
    parseUFloat (T ++ '.' :: R) = some ⟨(n : Int), R.length⟩ := by
  unfold parseUFloat
  rw [dropWhile_append_of_not _ T '.' R hTd rfl, takeWhile_append_of_not _ T '.' R hTd rfl]
  have hTne : T.isEmpty = false := by
    cases T with
    | nil => exact absurd rfl hT
    | cons c cs' => rfl
  simp only [List.isEmpty_cons, hTne, List.headI, List.tail_cons]
  rw [List.all_eq_true.mpr hRd]
  simp [hval]

theorem parsePyFloat_printPyFloat (f : PyFloat) : parsePyFloat (printPyFloat f) = some f := by
  obtain ⟨m, e⟩ := f
  unfold printPyFloat
  by_cases he : e = 0
  · subst he
    rw [if_pos rfl]
    show parsePyFloat (printPyInt m) = some ⟨m, 0⟩
    unfold printPyInt
    by_cases hneg : m < 0
    · rw [if_pos hneg, parsePyFloat_cons, if_pos rfl,
        parseUFloat_digits _ m.natAbs (natToChars_ne_nil _) (natToChars_all_digits _)
          (charsToNat_natToChars _)]
      simp only [Option.map_some', Option.some.injEq, PyFloat.mk.injEq]
      constructor
      · omega
      · trivial
    · rw [if_neg hneg]
      cases hsh : natToChars m.natAbs with
      | nil => exact absurd hsh (natToChars_ne_nil _)
      | cons c cs =>
        have hc : isDigitCh c = true := by
          have hmem := natToChars_all_digits m.natAbs c
          rw [hsh] at hmem
          exact hmem (List.mem_cons_self c cs)
        rw [parsePyFloat_cons, if_neg (ne_of_digit c '-' hc rfl),
          if_neg (ne_of_digit c '+' hc rfl)]
        rw [← hsh,
          parseUFloat_digits _ m.natAbs (natToChars_ne_nil _) (natToChars_all_digits _)
            (charsToNat_natToChars _)]
        congr 2
        omega
  · rw [if_neg he]
    set D := natToChars m.natAbs with hD
    set pad := List.replicate (e + 1 - D.length) '0' ++ D with hpad
    have hpadd : ∀ c ∈ pad, isDigitCh c = true := by
      intro c hcmem
      rcases List.mem_append.mp hcmem with hcm | hcm
      · rcases List.eq_of_mem_replicate hcm with rfl
        rfl
      · exact natToChars_all_digits _ c hcm
    have hL : e + 1 ≤ pad.length := by
      rw [hpad]
      have hD1 : 1 ≤ D.length := by
        cases hsh : D with
        | nil => exact absurd hsh (natToChars_ne_nil _)
        | cons c cs => simp
      simp only [List.length_append, List.length_replicate]
      omega
    have hTd : ∀ c ∈ pad.take (pad.length - e), isDigitCh c = true :=
      fun c hcm => hpadd c (List.take_subset _ _ hcm)
    have hRd : ∀ c ∈ pad.drop (pad.length - e), isDigitCh c = true :=
      fun c hcm => hpadd c (List.drop_subset _ _ hcm)
    have hTne : pad.take (pad.length - e) ≠ [] := by
      have hlt : (pad.take (pad.length - e)).length = pad.length - e := by
        rw [List.length_take]
        omega
      intro hnil
      rw [hnil] at hlt
      simp at hlt
      omega
    have hTR : pad.take (pad.length - e) ++ pad.drop (pad.length - e) = pad :=
      List.take_append_drop _ _
    have hval : charsToNat (pad.take (pad.length - e) ++ pad.drop (pad.length - e)) =
        some m.natAbs := by
      rw [hTR, hpad, charsToNat_replicate_zero, hD, charsToNat_natToChars]
    have hRlen : (pad.drop (pad.length - e)).length = e := by
      rw [List.length_drop]
      omega
    have hparse := parseUFloat_point _ _ m.natAbs hTne hTd hRd hval
    by_cases hneg : m < 0
    · rw [if_pos hneg]
      show parsePyFloat ('-' :: (pad.take (pad.length - e) ++ '.' :: pad.drop (pad.length - e))) =
        some ⟨m, e⟩
      rw [parsePyFloat_cons, if_pos rfl, hparse]
      simp only [Option.map_some']
      congr 1
      simp only [PyFloat.mk.injEq]
      constructor
      · omega
      · exact hRlen
    · rw [if_neg hneg]
      show parsePyFloat ((pad.take (pad.length - e) ++ '.' :: pad.drop (pad.length - e))) =
        some ⟨m, e⟩
      cases hsh : pad.take (pad.length - e) with
      | nil => exact absurd hsh hTne
      | cons c cs =>
        have hc : isDigitCh c = true := by
          have hmem := hTd c
          rw [hsh] at hmem
          exact hmem (List.mem_cons_self c cs)
        rw [List.cons_append, parsePyFloat_cons,
          if_neg (ne_of_digit c '-' hc rfl), if_neg (ne_of_digit c '+' hc rfl),
          ← List.cons_append, ← hsh, hparse]
        simp only [Option.some.injEq, PyFloat.mk.injEq]
        constructor
        · omega
        · exact hRlen

theorem splitComma_ne_nil : ∀ s : List Char, splitComma s ≠ [] := by
  intro s
  induction s with
  | nil => simp [splitComma]
  | cons c rest ih =>
    unfold splitComma
    by_cases hc : c = ','
    · rw [if_pos hc]; simp
    · rw [if_neg hc]
      cases h : splitComma rest with
      | nil => simp
      | cons hd tl => simp

theorem splitComma_cons (c : Char) (s : List Char) :
    splitComma (c :: s) =
      if c = ',' then [] :: splitComma s
      else
        match splitComma s with
        | [] => [[c]]
        | h :: t => (c :: h) :: t := rfl

theorem splitComma_cons_ne (c : Char) (s : List Char) (hc : c ≠ ',') :
    splitComma (c :: s) = (c :: (splitComma s).headI) :: (splitComma s).tail := by
  rw [splitComma_cons, if_neg hc]
  cases h : splitComma s with
  | nil => exact absurd h (splitComma_ne_nil s)
  | cons hd tl => simp

theorem splitComma_cons_comma (s : List Char) :
    splitComma (',' :: s) = [] :: splitComma s := by
  rw [splitComma_cons, if_pos rfl]

theorem splitComma_append (p t : List Char) (hp : ∀ c ∈ p, c ≠ ',') :
    splitComma (p ++ t) = (p ++ (splitComma t).headI) :: (splitComma t).tail := by
  induction p with
  | nil =>
    simp only [List.nil_append]
    cases h : splitComma t with
    | nil => exact absurd h (splitComma_ne_nil t)
    | cons hd tl => simp
  | cons c cs ih =>
    rw [List.cons_append, splitComma_cons_ne c _ (hp c (List.mem_cons_self c cs)),
      ih (fun d hd => hp d (List.mem_cons_of_mem c hd))]
    simp

theorem splitComma_join (ps : List (List Char)) (hne : ps ≠ [])
    (hp : ∀ q ∈ ps, ∀ c ∈ q, c ≠ ',') :
    splitComma (joinComma ps) = ps := by
  induction ps with
  | nil => exact absurd rfl hne
  | cons p rest ih =>
    cases rest with
    | nil =>
      show splitComma (joinComma [p]) = [p]
      have hsp := splitComma_append p [] (hp p (List.mem_cons_self p []))
      simpa [joinComma, splitComma] using hsp
    | cons q rest2 =>
      show splitComma (p ++ ',' :: joinComma (q :: rest2)) = p :: q :: rest2
      rw [splitComma_append p _ (hp p (List.mem_cons_self p _)), splitComma_cons_comma,
        ih (by simp) (fun u hu c hc => hp u (List.mem_cons_of_mem p hu) c hc)]
      simp

theorem mem_joinComma (ps : List (List Char)) (c : Char) :
    c ∈ joinComma ps → c = ',' ∨ ∃ q ∈ ps, c ∈ q := by
  induction ps with
  | nil => intro h; simp [joinComma] at h
  | cons p rest ih =>
    cases rest with
    | nil =>
      intro h
      exact Or.inr ⟨p, List.mem_cons_self p [], h⟩
    | cons q rest2 =>
      intro h
      rcases List.mem_append.mp h with h1 | h1
      · exact Or.inr ⟨p, List.mem_cons_self p _, h1⟩
      · rcases List.mem_cons.mp h1 with h2 | h2
        · exact Or.inl h2
        · rcases ih h2 with h3 | ⟨u, hu, hcu⟩
          · exact Or.inl h3
          · exact Or.inr ⟨u, List.mem_cons_of_mem p hu, hcu⟩

theorem mem_printPyInt_class (i : Int) :
    ∀ c ∈ printPyInt i, isDigitCh c = true ∨ c = '-' := by
  intro c hc
  unfold printPyInt at hc
  by_cases hneg : i < 0
  · rw [if_pos hneg] at hc
    rcases List.mem_cons.mp hc with h | h
    · exact Or.inr h
    · exact Or.inl (natToChars_all_digits _ c h)
  · rw [if_neg hneg] at hc
    exact Or.inl (natToChars_all_digits _ c hc)

theorem mem_printPyFloat_class (f : PyFloat) :
    ∀ c ∈ printPyFloat f, isDigitCh c = true ∨ c = '-' ∨ c = '.' := by
  intro c hc
  unfold printPyFloat at hc
  by_cases he : f.e = 0
  · rw [if_pos he] at hc
    rcases mem_printPyInt_class f.m c hc with h | h
    · exact Or.inl h
    · exact Or.inr (Or.inl h)
  · rw [if_neg he] at hc
    rcases List.mem_append.mp hc with h1 | h1
    · by_cases hneg : f.m < 0
      · rw [if_pos hneg] at h1
        rcases List.mem_singleton.mp h1 with rfl
        exact Or.inr (Or.inl rfl)
      · rw [if_neg hneg] at h1
        simp at h1
    · have hpadd : ∀ d ∈ List.replicate (f.e + 1 - (natToChars f.m.natAbs).length) '0' ++
          natToChars f.m.natAbs, isDigitCh d = true := by
        intro d hd
        rcases List.mem_append.mp hd with hm | hm
        · rcases List.eq_of_mem_replicate hm with rfl
          rfl
        · exact natToChars_all_digits _ d hm
      rcases List.mem_append.mp h1 with h2 | h2
      · exact Or.inl (hpadd c (List.take_subset _ _ h2))
      · rcases List.mem_cons.mp h2 with h3 | h3
        · exact Or.inr (Or.inr h3)
        · exact Or.inl (hpadd c (List.drop_subset _ _ h3))

theorem printPyFloat_no_comma (f : PyFloat) : ∀ c ∈ printPyFloat f, c ≠ ',' := by
  intro c hc
  rcases mem_printPyFloat_class f c hc with h | h | h
  · exact ne_of_digit c ',' h rfl
  · rw [h]; decide
  · rw [h]; decide

theorem printPyInt_no_comma (i : Int) : ∀ c ∈ printPyInt i, c ≠ ',' := by
  intro c hc
  rcases mem_printPyInt_class i c hc with h | h
  · exact ne_of_digit c ',' h rfl
  · rw [h]; decide

theorem join_printPyFloat_ne_None (xs : List PyFloat) :
    joinComma (xs.map printPyFloat) ≠ chars "None" := by
  intro h
  have hN : 'N' ∈ joinComma (xs.map printPyFloat) := by
    rw [h]
    decide
  rcases mem_joinComma _ 'N' hN with h1 | ⟨q, hq, hNq⟩
  · cases h1
  · rcases List.mem_map.mp hq with ⟨f, _, rfl⟩
    rcases mem_printPyFloat_class f 'N' hNq with h2 | h2 | h2 <;> cases h2

theorem join_printPyInt_ne_None (xs : List Int) :
    joinComma (xs.map printPyInt) ≠ chars "None" := by
  intro h
  have hN : 'N' ∈ joinComma (xs.map printPyInt) := by
    rw [h]
    decide
  rcases mem_joinComma _ 'N' hN with h1 | ⟨q, hq, hNq⟩
  · cases h1
  · rcases List.mem_map.mp hq with ⟨i, _, rfl⟩
    rcases mem_printPyInt_class i 'N' hNq with h2 | h2 <;> cases h2

theorem printPyInt_ne_None (i : Int) : printPyInt i ≠ chars "None" := by
  intro h
  have hN : 'N' ∈ printPyInt i := by
    rw [h]
    decide
  rcases mem_printPyInt_class i 'N' hN with h2 | h2 <;> cases h2

theorem printPyFloat_ne_None (f : PyFloat) : printPyFloat f ≠ chars "None" := by
  intro h
  have hN : 'N' ∈ printPyFloat f := by
    rw [h]
    decide
  rcases mem_printPyFloat_class f 'N' hN with h2 | h2 | h2 <;> cases h2

theorem floatParts_join (xs : List PyFloat) (hne : xs ≠ []) :
    floatParts (joinComma (xs.map printPyFloat)) = some xs := by
  unfold floatParts
  rw [splitComma_join (xs.map printPyFloat) (by simpa using hne)
    (by
      intro q hq c hc
      rcases List.mem_map.mp hq with ⟨f, _, rfl⟩
      exact printPyFloat_no_comma f c hc)]
  exact optList_map_roundtrip parsePyFloat printPyFloat xs
    (fun f _ => parsePyFloat_printPyFloat f)

theorem intParts_join (xs : List Int) (hne : xs ≠ []) :
    optList parsePyInt (splitComma (joinComma (xs.map printPyInt))) = some xs := by
  rw [splitComma_join (xs.map printPyInt) (by simpa using hne)
    (by
      intro q hq c hc
      rcases List.mem_map.mp hq with ⟨i, _, rfl⟩
      exact printPyInt_no_comma i c hc)]
  exact optList_map_roundtrip parsePyInt printPyInt xs
    (fun i _ => parsePyInt_printPyInt i)

theorem ptv_some (s ts st : List Char) :
    parse_typed_value (some s) ts st =
      if s = chars "None" then none else (pvBody s ts st).toOption := rfl

theorem pvBody_vector (v ts : List Char) :
    pvBody v ts (chars "VECTOR") =
      match floatParts v with
      | none => .error ()
      | some xs => toExc (mkVector xs) := by
  unfold pvBody
  rw [if_pos rfl]

theorem pvBody_euler (v ts : List Char) :
    pvBody v ts (chars "EULER") =
      match floatParts v with
      | none => .error ()
      | some xs => toExc (mkEuler xs) := by
  unfold pvBody
  rw [if_neg (by decide), if_pos rfl]

theorem pvBody_quat (v ts : List Char) :
    pvBody v ts (chars "QUATERNION") =
      match floatParts v with
      | none => .error ()
      | some xs => toExc (mkQuat xs) := by
  unfold pvBody
  rw [if_neg (by decide), if_neg (by decide), if_pos rfl]

theorem pvBody_matrix (v ts : List Char) :
    pvBody v ts (chars "MATRIX_4X4") =
      match floatParts v with
      | none => .error ()
      | some xs =>
        toExc (mkMatrix [xs.take 4, (xs.drop 4).take 4, (xs.drop 8).take 4,
          (xs.drop 12).take 4]) := by
  unfold pvBody
  rw [if_neg (by decide), if_neg (by decide), if_neg (by decide), if_pos rfl]

theorem pvBody_float_tag (v : List Char) :
    pvBody v (chars "FLOAT") [] = toExc ((parsePyFloat v).map PyValue.float) := rfl

theorem pvBody_int_tag (v : List Char) :
    pvBody v (chars "INT") [] = toExc ((parsePyInt v).map PyValue.int) := rfl

theorem pvBody_float_array_tag (v : List Char) :
    pvBody v (chars "FLOAT_ARRAY") [] =
      if v.isEmpty then .ok (.pylist [])
      else
        toExc ((optList parsePyFloat (splitComma v)).map
          (fun xs => PyValue.pylist (xs.map PyValue.float))) := rfl

theorem pvBody_int_array_tag (v : List Char) :
    pvBody v (chars "INT_ARRAY") [] =
      if v.isEmpty then .ok (.pylist [])
      else
        toExc ((optList parsePyInt (splitComma v)).map
          (fun xs => PyValue.pylist (xs.map PyValue.int))) := rfl

theorem printPyInt_ne_nil (i : Int) : printPyInt i ≠ [] := by
  unfold printPyInt
  by_cases h : i < 0
  · rw [if_pos h]; simp
  · rw [if_neg h]; exact natToChars_ne_nil _

theorem printPyFloat_ne_nil (f : PyFloat) : printPyFloat f ≠ [] := by
  unfold printPyFloat
  by_cases he : f.e = 0
  · rw [if_pos he]; exact printPyInt_ne_nil _
  · rw [if_neg he]
    intro h
    simp [List.append_eq_nil] at h

theorem joinComma_map_ne_nil {β : Type} (f : β → List Char) (hf : ∀ b, f b ≠ [])
    (x : β) (rest : List β) : joinComma ((x :: rest).map f) ≠ [] := by
  cases rest with
  | nil => exact hf x
  | cons y rest2 =>
    show joinComma (f x :: (y :: rest2).map f) ≠ []
    cases hm : (y :: rest2).map f with
    | nil => simp at hm
    | cons p ps =>
      show f x ++ ',' :: joinComma (p :: ps) ≠ []
      simp

theorem map_pyStrScalar_float (xs : List PyFloat) :
    (xs.map PyValue.float).map pyStrScalar = xs.map printPyFloat := by
  rw [List.map_map]
  rfl

theorem map_pyStrScalar_int (xs : List Int) :
    (xs.map PyValue.int).map pyStrScalar = xs.map printPyInt := by
  rw [List.map_map]
  rfl

theorem mkMatrix_slices_short (xs : List PyFloat) (h : xs.length < 16) :
    mkMatrix [xs.take 4, (xs.drop 4).take 4, (xs.drop 8).take 4, (xs.drop 12).take 4] =
      none := by
  simp only [mkMatrix]
  rw [if_neg]
  intro hcond
  rcases hcond with ⟨h1, h2, h3, h4, h5⟩
  simp only [List.all_cons, List.all_nil, Bool.and_true, Bool.and_eq_true,
    decide_eq_true_eq] at h5
  rcases h5 with ⟨-, h52, -, h54⟩
  simp only [List.length_take, List.length_drop] at h3 h52 h54
  omega

theorem pvBody_string_tag (v : List Char) : pvBody v (chars "STRING") [] = .ok (.str v) := rfl

theorem pvBody_enum_tag (v : List Char) : pvBody v (chars "ENUM") [] = .ok (.str v) := rfl

theorem pvBody_pointer_tag (v : List Char) : pvBody v (chars "POINTER") [] = .ok (.str v) := rfl

theorem gpi_str_string (s : List Char) :
    get_prop_info (.ok (.str s)) (chars "STRING") = (s, chars "STRING", []) := rfl

theorem gpi_str_enum (s : List Char) :
    get_prop_info (.ok (.str s)) (chars "ENUM") = (s, chars "ENUM", []) := rfl

theorem gpi_bool (b : Bool) :
    get_prop_info (.ok (.bool b)) (chars "BOOLEAN") =
      (pyStrScalar (.bool b), chars "BOOLEAN", []) := rfl

theorem gpi_int (i : Int) :
    get_prop_info (.ok (.int i)) (chars "INT") = (printPyInt i, chars "INT", []) := rfl

theorem gpi_float (f : PyFloat) :
    get_prop_info (.ok (.float f)) (chars "FLOAT") = (printPyFloat f, chars "FLOAT", []) := rfl

theorem gpi_pylist_fa (l : List PyValue) :
    get_prop_info (.ok (.pylist l)) (chars "FLOAT_ARRAY") =
      (joinComma (l.map pyStrScalar), chars "FLOAT_ARRAY", []) := rfl

theorem gpi_pylist_ia (l : List PyValue) :
    get_prop_info (.ok (.pylist l)) (chars "INT_ARRAY") =
      (joinComma (l.map pyStrScalar), chars "INT_ARRAY", []) := rfl

theorem gpi_entity_ptr (nm : List Char) :
    get_prop_info (.ok (.entity nm)) (chars "POINTER") = (nm, chars "POINTER", []) := rfl

theorem gpi_vec (xs : List PyFloat) (rt : List Char) :
    get_prop_info (.ok (.vec xs)) rt =
      (joinComma (xs.map printPyFloat), rt, chars "VECTOR") := rfl

theorem gpi_euler (xs : List PyFloat) (rt : List Char) :
    get_prop_info (.ok (.euler xs)) rt =
      (joinComma (xs.map printPyFloat), rt, chars "EULER") := rfl

theorem gpi_quat (xs : List PyFloat) (rt : List Char) :
    get_prop_info (.ok (.quat xs)) rt =
      (joinComma (xs.map printPyFloat), rt, chars "QUATERNION") := rfl

theorem gpi_matrix (rows : List (List PyFloat)) (rt : List Char) :
    get_prop_info (.ok (.matrix rows)) rt =
      (joinComma ((rows.flatten).map printPyFloat), rt,
        if rows.length = 4 then chars "MATRIX_4X4" else chars "MATRIX") := rfl

theorem isEmpty_false_of_ne_nil {l : List Char} (h : l ≠ []) : l.isEmpty = false := by
  cases l with
  | nil => exact absurd rfl h
  | cons a as => rfl

theorem list_len4 {α : Type} (l : List α) (h : l.length = 4) :
    ∃ a b c d, l = [a, b, c, d] := by
  rcases l with _ | ⟨a, l⟩
  · simp at h
  rcases l with _ | ⟨b, l⟩
  · simp at h
  rcases l with _ | ⟨c, l⟩
  · simp at h
  rcases l with _ | ⟨d, l⟩
  · simp at h
  rcases l with _ | ⟨e, l⟩
  · exact ⟨a, b, c, d, rfl⟩
  · simp only [List.length_cons] at h
    omega

/-- C2 (amended): the codec round trip decode(encode(v, T)) = v holds for the
tags STRING and ENUM on every string other than the literal None text, for
BOOL, INT and FLOAT on every value, for ARRAY_FLOAT and ARRAY_INT on every
element list, and for the four structural subtypes at their fixed component
counts (vector 3, Euler 3, quaternion 4, matrix 4 by 4) under any declared
type tag; POINTER values round trip to the referenced entity's name string
(the reference itself), not an entity value. It fails for ARRAY_BOOL, whose
decode yields the absent sentinel. -/
theorem c2_roundtrip_amended :
    (∀ s : List Char, s ≠ chars "None" →
      round_trip (.str s) (chars "STRING") = some (.str s)) ∧
    (∀ s : List Char, s ≠ chars "None" →
      round_trip (.str s) (chars "ENUM") = some (.str s)) ∧
    (∀ b : Bool, round_trip (.bool b) (chars "BOOLEAN") = some (.bool b)) ∧
    (∀ i : Int, round_trip (.int i) (chars "INT") = some (.int i)) ∧
    (∀ f : PyFloat, round_trip (.float f) (chars "FLOAT") = some (.float f)) ∧
    (∀ xs : List PyFloat, round_trip (.pylist (xs.map PyValue.float)) (chars "FLOAT_ARRAY") =
      some (.pylist (xs.map PyValue.float))) ∧
    (∀ xs : List Int, round_trip (.pylist (xs.map PyValue.int)) (chars "INT_ARRAY") =
      some (.pylist (xs.map PyValue.int))) ∧
    (∀ nm : List Char, nm ≠ chars "None" →
      round_trip (.entity nm) (chars "POINTER") = some (.str nm)) ∧
    (∀ (ts : List Char) (xs : List PyFloat), xs.length = 3 →
      round_trip (.vec xs) ts = some (.vec xs)) ∧
    (∀ (ts : List Char) (xs : List PyFloat), xs.length = 3 →
      round_trip (.euler xs) ts = some (.euler xs)) ∧
    (∀ (ts : List Char) (xs : List PyFloat), xs.length = 4 →
      round_trip (.quat xs) ts = some (.quat xs)) ∧
    (∀ (ts : List Char) (rows : List (List PyFloat)), rows.length = 4 →
      (∀ r ∈ rows, r.length = 4) →
      round_trip (.matrix rows) ts = some (.matrix rows)) := by
  refine ⟨?_, ?_, ?_, ?_, ?_, ?_, ?_, ?_, ?_, ?_, ?_, ?_⟩
  · intro s hs
    unfold round_trip
    rw [gpi_str_string]
    dsimp only
    rw [ptv_some, if_neg hs, pvBody_string_tag]
    rfl
  · intro s hs
    unfold round_trip
    rw [gpi_str_enum]
    dsimp only
    rw [ptv_some, if_neg hs, pvBody_enum_tag]
    rfl
  · intro b
    cases b <;> rfl
  · intro i
    unfold round_trip
    rw [gpi_int]
    dsimp only
    rw [ptv_some, if_neg (printPyInt_ne_None i), pvBody_int_tag, parsePyInt_printPyInt]
    rfl
  · intro f
    unfold round_trip
    rw [gpi_float]
    dsimp only
    rw [ptv_some, if_neg (printPyFloat_ne_None f), pvBody_float_tag, parsePyFloat_printPyFloat]
    rfl
  · intro xs
    unfold round_trip
    rw [gpi_pylist_fa]
    dsimp only
    rw [map_pyStrScalar_float, ptv_some]
    cases xs with
    | nil => rfl
    | cons x rest =>
      have hne := joinComma_map_ne_nil printPyFloat printPyFloat_ne_nil x rest
      rw [if_neg (join_printPyFloat_ne_None (x :: rest)), pvBody_float_array_tag,
        isEmpty_false_of_ne_nil hne]
      simp only [Bool.false_eq_true, if_false]
      have hfp := floatParts_join (x :: rest) (by simp)
      unfold floatParts at hfp
      rw [hfp]
      rfl
  · intro xs
    unfold round_trip
    rw [gpi_pylist_ia]
    dsimp only
    rw [map_pyStrScalar_int, ptv_some]
    cases xs with
    | nil => rfl
    | cons x rest =>
      have hne := joinComma_map_ne_nil printPyInt printPyInt_ne_nil x rest
      rw [if_neg (join_printPyInt_ne_None (x :: rest)), pvBody_int_array_tag,
        isEmpty_false_of_ne_nil hne]
      simp only [Bool.false_eq_true, if_false]
      rw [intParts_join (x :: rest) (by simp)]
      rfl
  · intro nm hnm
    unfold round_trip
    rw [gpi_entity_ptr]
    dsimp only
    rw [ptv_some, if_neg hnm, pvBody_pointer_tag]
    rfl
  · intro ts xs h3
    unfold round_trip
    rw [gpi_vec]
    dsimp only
    have hxne : xs ≠ [] := by
      intro h
      rw [h] at h3
      cases h3
    rw [ptv_some, if_neg (join_printPyFloat_ne_None xs), pvBody_vector,
      floatParts_join xs hxne]
    show (toExc (mkVector xs)).toOption = some (PyValue.vec xs)
    unfold mkVector
    rw [if_pos (show 2 ≤ xs.length by omega)]
    rfl
  · intro ts xs h3
    unfold round_trip
    rw [gpi_euler]
    dsimp only
    have hxne : xs ≠ [] := by
      intro h
      rw [h] at h3
      cases h3
    rw [ptv_some, if_neg (join_printPyFloat_ne_None xs), pvBody_euler,
      floatParts_join xs hxne]
    show (toExc (mkEuler xs)).toOption = some (PyValue.euler xs)
    unfold mkEuler
    rw [if_pos h3]
    rfl
  · intro ts xs h4
    unfold round_trip
    rw [gpi_quat]
    dsimp only
    have hxne : xs ≠ [] := by
      intro h
      rw [h] at h4
      cases h4
    rw [ptv_some, if_neg (join_printPyFloat_ne_None xs), pvBody_quat,
      floatParts_join xs hxne]
    show (toExc (mkQuat xs)).toOption = some (PyValue.quat xs)
    unfold mkQuat
    rw [if_pos h4]
    rfl
  · intro ts rows h4 hr
    obtain ⟨r0, r1, r2, r3, rfl⟩ := list_len4 rows h4
    have hr0 : r0.length = 4 := hr r0 (by simp)
    have hr1 : r1.length = 4 := hr r1 (by simp)
    have hr2 : r2.length = 4 := hr r2 (by simp)
    have hr3 : r3.length = 4 := hr r3 (by simp)
    unfold round_trip
    rw [gpi_matrix]
    dsimp only
    rw [if_pos h4]
    have hflat : ([r0, r1, r2, r3] : List (List PyFloat)).flatten =
        r0 ++ (r1 ++ (r2 ++ r3)) := by
      simp [List.flatten]
    rw [hflat]
    have hflatne : r0 ++ (r1 ++ (r2 ++ r3)) ≠ [] := by
      intro h
      have hl := congrArg List.length h
      simp only [List.length_append, List.length_nil] at hl
      omega
    rw [ptv_some, if_neg (join_printPyFloat_ne_None _), pvBody_matrix,
      floatParts_join _ hflatne]
    have e1 : (r0 ++ (r1 ++ (r2 ++ r3))).take 4 = r0 := by
      rw [← hr0]
      exact List.take_left r0 _
    have d4 : (r0 ++ (r1 ++ (r2 ++ r3))).drop 4 = r1 ++ (r2 ++ r3) := by
      rw [← hr0]
      exact List.drop_left r0 _
    have e2 : ((r0 ++ (r1 ++ (r2 ++ r3))).drop 4).take 4 = r1 := by
      rw [d4, ← hr1]
      exact List.take_left r1 _
    have d8 : (r0 ++ (r1 ++ (r2 ++ r3))).drop 8 = r2 ++ r3 := by
      rw [show (8 : Nat) = 4 + 4 from rfl, ← List.drop_drop, d4, ← hr1]
      exact List.drop_left r1 _
    have e3 : ((r0 ++ (r1 ++ (r2 ++ r3))).drop 8).take 4 = r2 := by
      rw [d8, ← hr2]
      exact List.take_left r2 _
    have d12 : (r0 ++ (r1 ++ (r2 ++ r3))).drop 12 = r3 := by
      rw [show (12 : Nat) = 8 + 4 from rfl, ← List.drop_drop, d8, ← hr2]
      exact List.drop_left r2 _
    have e4 : ((r0 ++ (r1 ++ (r2 ++ r3))).drop 12).take 4 = r3 := by
      rw [d12, ← hr3]
      exact List.take_length r3
    show (toExc (mkMatrix [(r0 ++ (r1 ++ (r2 ++ r3))).take 4,
      ((r0 ++ (r1 ++ (r2 ++ r3))).drop 4).take 4,
      ((r0 ++ (r1 ++ (r2 ++ r3))).drop 8).take 4,
      ((r0 ++ (r1 ++ (r2 ++ r3))).drop 12).take 4])).toOption =
      some (PyValue.matrix [r0, r1, r2, r3])
    rw [e1, e2, e3, e4]
    simp only [mkMatrix]
    rw [if_pos]
    · rfl
    · refine ⟨by norm_num, by norm_num, by omega, by omega, ?_⟩
      simp [hr0, hr1, hr2, hr3]

/-- C2 (counterexample): a boolean array value encodes as the True and False
literals joined by commas, but the decoder's array branch parses the parts
with int(), which fails, so the round trip yields the absent sentinel instead
of the original value — refuting the claim for the ARRAY_BOOL tag. -/
theorem c2_counterexample :
    round_trip (.pylist [.bool true, .bool false]) (chars "BOOLEAN_ARRAY") = none ∧
    round_trip (.pylist [.bool true, .bool false]) (chars "BOOLEAN_ARRAY") ≠
      some (.pylist [.bool true, .bool false]) :=
  ⟨rfl, fun h => nomatch h⟩

/-- C2 (witness): the amended round trip law applied at concrete values of
each covered tag. -/
theorem c2_witness :
    round_trip (.str (chars "abc")) (chars "STRING") = some (.str (chars "abc")) ∧
    round_trip (.str (chars "POSE")) (chars "ENUM") = some (.str (chars "POSE")) ∧
    round_trip (.int (-7)) (chars "INT") = some (.int (-7)) ∧
    round_trip (.float ⟨15, 1⟩) (chars "FLOAT") = some (.float ⟨15, 1⟩) ∧
    round_trip (.pylist [PyValue.float ⟨1, 0⟩, PyValue.float ⟨25, 1⟩]) (chars "FLOAT_ARRAY") =
      some (.pylist [PyValue.float ⟨1, 0⟩, PyValue.float ⟨25, 1⟩]) ∧
    round_trip (.pylist [PyValue.int 3, PyValue.int (-4)]) (chars "INT_ARRAY") =
      some (.pylist [PyValue.int 3, PyValue.int (-4)]) ∧
    round_trip (.entity (chars "Cube")) (chars "POINTER") = some (.str (chars "Cube")) ∧
    round_trip (.vec [⟨1, 0⟩, ⟨2, 0⟩, ⟨3, 0⟩]) (chars "FLOAT") =
      some (.vec [⟨1, 0⟩, ⟨2, 0⟩, ⟨3, 0⟩]) ∧
    round_trip (.euler [⟨0, 0⟩, ⟨0, 0⟩, ⟨157, 2⟩]) (chars "EULER") =
      some (.euler [⟨0, 0⟩, ⟨0, 0⟩, ⟨157, 2⟩]) ∧
    round_trip (.quat [⟨1, 0⟩, ⟨0, 0⟩, ⟨0, 0⟩, ⟨0, 0⟩]) (chars "QUATERNION") =
      some (.quat [⟨1, 0⟩, ⟨0, 0⟩, ⟨0, 0⟩, ⟨0, 0⟩]) ∧
    round_trip (.matrix [[⟨1, 0⟩, ⟨0, 0⟩, ⟨0, 0⟩, ⟨0, 0⟩], [⟨0, 0⟩, ⟨1, 0⟩, ⟨0, 0⟩, ⟨0, 0⟩],
        [⟨0, 0⟩, ⟨0, 0⟩, ⟨1, 0⟩, ⟨0, 0⟩], [⟨1, 0⟩, ⟨2, 0⟩, ⟨3, 0⟩, ⟨1, 0⟩]])
      (chars "MATRIX_4X4") =
      some (.matrix [[⟨1, 0⟩, ⟨0, 0⟩, ⟨0, 0⟩, ⟨0, 0⟩], [⟨0, 0⟩, ⟨1, 0⟩, ⟨0, 0⟩, ⟨0, 0⟩],
        [⟨0, 0⟩, ⟨0, 0⟩, ⟨1, 0⟩, ⟨0, 0⟩], [⟨1, 0⟩, ⟨2, 0⟩, ⟨3, 0⟩, ⟨1, 0⟩]]) :=
  ⟨c2_roundtrip_amended.1 (chars "abc") (by decide),
   c2_roundtrip_amended.2.1 (chars "POSE") (by decide),
   c2_roundtrip_amended.2.2.2.1 (-7),
   c2_roundtrip_amended.2.2.2.2.1 ⟨15, 1⟩,
   c2_roundtrip_amended.2.2.2.2.2.1 [⟨1, 0⟩, ⟨25, 1⟩],
   c2_roundtrip_amended.2.2.2.2.2.2.1 [3, -4],
   c2_roundtrip_amended.2.2.2.2.2.2.2.1 (chars "Cube") (by decide),
   c2_roundtrip_amended.2.2.2.2.2.2.2.2.1 (chars "FLOAT") [⟨1, 0⟩, ⟨2, 0⟩, ⟨3, 0⟩] (by decide),
   c2_roundtrip_amended.2.2.2.2.2.2.2.2.2.1 (chars "EULER") [⟨0, 0⟩, ⟨0, 0⟩, ⟨157, 2⟩]
     (by decide),
   c2_roundtrip_amended.2.2.2.2.2.2.2.2.2.2.1 (chars "QUATERNION")
     [⟨1, 0⟩, ⟨0, 0⟩, ⟨0, 0⟩, ⟨0, 0⟩] (by decide),
   c2_roundtrip_amended.2.2.2.2.2.2.2.2.2.2.2 (chars "MATRIX_4X4")
     [[⟨1, 0⟩, ⟨0, 0⟩, ⟨0, 0⟩, ⟨0, 0⟩], [⟨0, 0⟩, ⟨1, 0⟩, ⟨0, 0⟩, ⟨0, 0⟩],
      [⟨0, 0⟩, ⟨0, 0⟩, ⟨1, 0⟩, ⟨0, 0⟩], [⟨1, 0⟩, ⟨2, 0⟩, ⟨3, 0⟩, ⟨1, 0⟩]] (by decide)
     (by decide)⟩

/-- C3: the decoder is total. parse_typed_value is a total function of its
three inputs; whenever the body of the try block raises (any malformed numeric
text or structural constructor failure, modelled by pvBody returning an
error), parse_typed_value returns the absent sentinel none instead of
propagating the error, and an absent value string also yields none. -/
theorem c3_decoder_total (v ts st : List Char) :
    (∀ u : Unit, pvBody v ts st = Except.error u →
      parse_typed_value (some v) ts st = none) ∧
    parse_typed_value none ts st = none := by
  constructor
  · intro u herr
    rw [ptv_some]
    by_cases hn : v = chars "None"
    · rw [if_pos hn]
    · rw [if_neg hn, herr]
      rfl
  · rfl

/-- C3 (witness): malformed float text makes the body raise and the decoder
return the absent sentinel. -/
theorem c3_witness :
    pvBody (chars "abc") (chars "FLOAT") [] = Except.error () ∧
    parse_typed_value (some (chars "abc")) (chars "FLOAT") [] = none :=
  ⟨rfl, (c3_decoder_total (chars "abc") (chars "FLOAT") []).1 () rfl⟩

/-- C4 (amended): decoding rejects mismatched fixed lengths for the EULER
subtype (any float list of length other than 3 yields the absent sentinel),
the QUATERNION subtype (other than 4), and the MATRIX_4X4 subtype when fewer
than 16 components are present; but not for VECTOR, whose constructor accepts
other arities, and not for MATRIX_4X4 values with more than 16 components,
which decode using the first 16. -/
theorem c4_length_rejection_amended :
    (∀ (v ts : List Char), (∀ xs, floatParts v = some xs → xs.length ≠ 3) →
      parse_typed_value (some v) ts (chars "EULER") = none) ∧
    (∀ (v ts : List Char), (∀ xs, floatParts v = some xs → xs.length ≠ 4) →
      parse_typed_value (some v) ts (chars "QUATERNION") = none) ∧
    (∀ (v ts : List Char), (∀ xs, floatParts v = some xs → xs.length < 16) →
      parse_typed_value (some v) ts (chars "MATRIX_4X4") = none) := by
  refine ⟨?_, ?_, ?_⟩
  · intro v ts hlen
    rw [ptv_some]
    by_cases hn : v = chars "None"
    · rw [if_pos hn]
    · rw [if_neg hn, pvBody_euler]
      cases hfp : floatParts v with
      | none => rfl
      | some xs =>
        show (toExc (mkEuler xs)).toOption = none
        unfold mkEuler
        rw [if_neg (hlen xs hfp)]
        rfl
  · intro v ts hlen
    rw [ptv_some]
    by_cases hn : v = chars "None"
    · rw [if_pos hn]
    · rw [if_neg hn, pvBody_quat]
      cases hfp : floatParts v with
      | none => rfl
      | some xs =>
        show (toExc (mkQuat xs)).toOption = none
        unfold mkQuat
        rw [if_neg (hlen xs hfp)]
        rfl
  · intro v ts hlen
    rw [ptv_some]
    by_cases hn : v = chars "None"
    · rw [if_pos hn]
    · rw [if_neg hn, pvBody_matrix]
      cases hfp : floatParts v with
      | none => rfl
      | some xs =>
        show (toExc (mkMatrix [xs.take 4, (xs.drop 4).take 4, (xs.drop 8).take 4,
          (xs.drop 12).take 4])).toOption = none
        rw [mkMatrix_slices_short xs (hlen xs hfp)]
        rfl

/-- C4 (counterexample): a VECTOR value of length 2 — different from the fixed
length 3 — is not rejected: it decodes to a 2 component vector, refuting the
claim that every mismatched length is rejected with the absent result. -/
theorem c4_counterexample :
    parse_typed_value (some (chars "1,2")) (chars "FLOAT") (chars "VECTOR") =
      some (.vec [⟨1, 0⟩, ⟨2, 0⟩]) ∧
    parse_typed_value (some (chars "1,2")) (chars "FLOAT") (chars "VECTOR") ≠ none :=
  ⟨rfl, fun h => nomatch h⟩

/-- C4 (witness): the amended rejection law at concrete wrong length inputs:
a 5 component Euler, a 3 component quaternion, and an 8 component matrix all
decode to the absent sentinel. -/
theorem c4_witness :
    parse_typed_value (some (chars "1,2,3,4,5")) (chars "FLOAT") (chars "EULER") = none ∧
    parse_typed_value (some (chars "1,2,3")) (chars "FLOAT") (chars "QUATERNION") = none ∧
    parse_typed_value (some (chars "1,2,3,4,5,6,7,8")) (chars "FLOAT") (chars "MATRIX_4X4") =
      none :=
  ⟨c4_length_rejection_amended.1 (chars "1,2,3,4,5") (chars "FLOAT")
    (by
      intro xs h
      rw [show floatParts (chars "1,2,3,4,5") =
        some [⟨1, 0⟩, ⟨2, 0⟩, ⟨3, 0⟩, ⟨4, 0⟩, ⟨5, 0⟩] from rfl] at h
      cases h
      decide),
   c4_length_rejection_amended.2.1 (chars "1,2,3") (chars "FLOAT")
    (by
      intro xs h
      rw [show floatParts (chars "1,2,3") = some [⟨1, 0⟩, ⟨2, 0⟩, ⟨3, 0⟩] from rfl] at h
      cases h
      decide),
   c4_length_rejection_amended.2.2 (chars "1,2,3,4,5,6,7,8") (chars "FLOAT")
    (by
      intro xs h
      rw [show floatParts (chars "1,2,3,4,5,6,7,8") =
        some [⟨1, 0⟩, ⟨2, 0⟩, ⟨3, 0⟩, ⟨4, 0⟩, ⟨5, 0⟩, ⟨6, 0⟩, ⟨7, 0⟩, ⟨8, 0⟩] from rfl] at h
      cases h
      decide)⟩

theorem apply_prop_world_matrix (st : ApplyState) (p : PropXml) :
    (apply_prop st p).hdata.world_matrix =
      if p.pname = chars "matrix_world" then
        parse_typed_value p.pvalue p.ptype p.structure_type
      else st.hdata.world_matrix := by
  simp only [apply_prop]
  by_cases h8 : p.pname = chars "matrix_world"
  · rw [if_pos h8, h8]
    rw [if_neg (by decide), if_neg (by decide), if_neg (by decide), if_neg (by decide),
      if_neg (by decide), if_neg (by decide), if_neg (by decide), if_pos rfl]
  · rw [if_neg h8]
    by_cases h1 : p.pname ∈ skipNames
    · rw [if_pos h1, if_neg h8]
    · rw [if_neg h1]
      by_cases h2 : p.pname = chars "parent"
      · rw [if_pos h2, if_neg h8]
      · rw [if_neg h2]
        by_cases h3 : p.pname = chars "parent_type"
        · rw [if_pos h3, if_neg h8]
        · rw [if_neg h3]
          by_cases h4 : p.pname = chars "parent_bone"
          · rw [if_pos h4, if_neg h8]
          · rw [if_neg h4]
            by_cases h5 : p.pname = chars "head"
            · rw [if_pos h5, if_neg h8]
            · rw [if_neg h5]
              by_cases h6 : p.pname = chars "tail"
              · rw [if_pos h6, if_neg h8]
              · rw [if_neg h6]
                by_cases h7 : p.pname = chars "matrix_parent_inverse"
                · rw [if_pos h7, if_neg h8]
                · rw [if_neg h7, if_neg h8]
                  by_cases h9 : p.pname = chars "rotation_mode"
                  · rw [if_pos h9]
                  · rw [if_neg h9]
                    by_cases h10 : p.pname ∈ localTransformNames
                    · rw [if_pos h10]
                      by_cases h10b : st.hdata.world_matrix.isNone = true
                      · rw [if_pos h10b]
                      · rw [if_neg h10b]
                    · rw [if_neg h10]
                      by_cases h11 : p.ptype = chars "POINTER"
                      · rw [if_pos h11]
                      · rw [if_neg h11]

theorem wm_tracking_general (M : List (List PyFloat)) :
    ∀ (props : List PropXml) (st : ApplyState) (b : Option (Option PyValue)),
      props.foldl
        (fun acc p =>
          if p.pname = chars "matrix_world" then
            some (parse_typed_value p.pvalue p.ptype p.structure_type)
          else acc) b = some (some (PyValue.matrix M)) →
      (∀ v, b = some v → st.hdata.world_matrix = v) →
      (props.foldl apply_prop st).hdata.world_matrix = some (PyValue.matrix M) := by
  intro props
  induction props with
  | nil =>
    intro st b hfold hinv
    simp only [List.foldl_nil] at hfold ⊢
    exact hinv _ hfold
  | cons p rest ih =>
    intro st b hfold hinv
    simp only [List.foldl_cons] at hfold ⊢
    refine ih (apply_prop st p) _ hfold ?_
    intro v hv
    by_cases hp : p.pname = chars "matrix_world"
    · rw [if_pos hp] at hv
      rcases Option.some.inj hv with rfl
      rw [apply_prop_world_matrix, if_pos hp]
    · rw [if_neg hp] at hv
      rw [apply_prop_world_matrix, if_neg hp]
      exact hinv v hv

/-- C1: world matrix precedence. For any Prop list whose last matrix_world
record parses to a 4 by 4 matrix M — regardless of where local transform
component records appear around it — the transform pass of resolve_hierarchy
assigns exactly that world matrix, and no local transform component
(location, rotation_euler, rotation_quaternion, scale) is ever assigned. -/
theorem c1_world_matrix_precedence (props : List PropXml) (M : List (List PyFloat))
    (h : last_world_matrix props = some (some (PyValue.matrix M)))
    (hM : M.length = 4 ∧ ∀ r ∈ M, r.length = 4) :
    ((chars "matrix_world", PyValue.matrix M) ∈
      resolve_transform (apply_xml_properties props).hdata) ∧
    (∀ a ∈ resolve_transform (apply_xml_properties props).hdata,
      a.1 ∉ localTransformNames) := by
  have hwm : (apply_xml_properties props).hdata.world_matrix = some (PyValue.matrix M) := by
    refine wm_tracking_general M props {} none ?_ ?_
    · exact h
    · intro v hv
      cases hv
  have hok : set_matrix_world_ok (some (PyValue.matrix M)) = true := by
    show decide (M.length = 4 ∧ ∀ r ∈ M, r.length = 4) = true
    rw [decide_eq_true_eq]
    exact hM
  unfold resolve_transform
  rw [hwm]
  constructor
  · refine List.mem_append_right _ ?_
    show (chars "matrix_world", PyValue.matrix M) ∈
      (if set_matrix_world_ok (some (PyValue.matrix M)) = true then
        [(chars "matrix_world", PyValue.matrix M)] else [])
    rw [if_pos hok]
    exact List.mem_singleton.mpr rfl
  · intro a ha
    rcases List.mem_append.mp ha with h1 | h1
    · revert h1
      cases hrot : (apply_xml_properties props).hdata.rotation_mode with
      | none => intro h1; simp at h1
      | some v =>
        intro h1
        rcases List.mem_singleton.mp h1 with rfl
        exact (by decide : chars "rotation_mode" ∉ localTransformNames)
    · revert h1
      show a ∈ (if set_matrix_world_ok (some (PyValue.matrix M)) = true then
        [(chars "matrix_world", PyValue.matrix M)] else []) → a.1 ∉ localTransformNames
      rw [if_pos hok]
      intro h1
      rcases List.mem_singleton.mp h1 with rfl
      exact (by decide : chars "matrix_world" ∉ localTransformNames)

/-- C1 (witness): a Prop list with a stray location record before the world
matrix record and another after it; the resolved transform contains the world
matrix assignment and no local component assignment. -/
theorem c1_witness :
    ((chars "matrix_world",
        PyValue.matrix [[⟨1, 0⟩, ⟨0, 0⟩, ⟨0, 0⟩, ⟨0, 0⟩], [⟨0, 0⟩, ⟨1, 0⟩, ⟨0, 0⟩, ⟨0, 0⟩],
          [⟨0, 0⟩, ⟨0, 0⟩, ⟨1, 0⟩, ⟨0, 0⟩], [⟨1, 0⟩, ⟨2, 0⟩, ⟨3, 0⟩, ⟨1, 0⟩]]) ∈
      resolve_transform (apply_xml_properties
        [⟨chars "location", chars "FLOAT", some (chars "9,9,9"), chars "VECTOR"⟩,
         ⟨chars "matrix_world", chars "MATRIX_4X4",
           some (chars "1,0,0,0,0,1,0,0,0,0,1,0,1,2,3,1"), chars "MATRIX_4X4"⟩,
         ⟨chars "location", chars "FLOAT", some (chars "8,8,8"), chars "VECTOR"⟩]).hdata) ∧
    (∀ a ∈ resolve_transform (apply_xml_properties
        [⟨chars "location", chars "FLOAT", some (chars "9,9,9"), chars "VECTOR"⟩,
         ⟨chars "matrix_world", chars "MATRIX_4X4",
           some (chars "1,0,0,0,0,1,0,0,0,0,1,0,1,2,3,1"), chars "MATRIX_4X4"⟩,
         ⟨chars "location", chars "FLOAT", some (chars "8,8,8"), chars "VECTOR"⟩]).hdata,
      a.1 ∉ localTransformNames) :=
  c1_world_matrix_precedence
    [⟨chars "location", chars "FLOAT", some (chars "9,9,9"), chars "VECTOR"⟩,
     ⟨chars "matrix_world", chars "MATRIX_4X4",
       some (chars "1,0,0,0,0,1,0,0,0,0,1,0,1,2,3,1"), chars "MATRIX_4X4"⟩,
     ⟨chars "location", chars "FLOAT", some (chars "8,8,8"), chars "VECTOR"⟩]
    [[⟨1, 0⟩, ⟨0, 0⟩, ⟨0, 0⟩, ⟨0, 0⟩], [⟨0, 0⟩, ⟨1, 0⟩, ⟨0, 0⟩, ⟨0, 0⟩],
     [⟨0, 0⟩, ⟨0, 0⟩, ⟨1, 0⟩, ⟨0, 0⟩], [⟨1, 0⟩, ⟨2, 0⟩, ⟨3, 0⟩, ⟨1, 0⟩]]
    rfl (by decide)

theorem non_parent_assigns (d : HierData) (hh ht : Bool) :
    ∀ a ∈ ((match d.ptype with
        | some tv => if pyTruthy tv then [ParentAssign.setParentType tv] else []
        | none => []) ++
       ((match d.bone with
         | some bv =>
           if pyTruthy bv then
             [ParentAssign.setParentTypeBone, ParentAssign.setParentBone bv] ++
             ((if hh then [ParentAssign.setHead (d.bhead.getD PyValue.pynone)] else []) ++
              (if ht then [ParentAssign.setTail (d.btail.getD PyValue.pynone)] else []))
           else []
         | none => []) ++
        (match d.inv with
         | some iv => if pyTruthy iv then [ParentAssign.setInverse iv] else []
         | none => []))), is_set_parent a = false := by
  intro a ha
  rcases List.mem_append.mp ha with h1 | h1
  · revert h1
    cases d.ptype with
    | none => intro h1; simp at h1
    | some tv =>
      intro h1
      have h1b : a ∈ (if pyTruthy tv = true then [ParentAssign.setParentType tv] else []) := h1
      by_cases hb : pyTruthy tv = true
      · rw [if_pos hb] at h1b
        rcases List.mem_singleton.mp h1b with rfl
        rfl
      · rw [if_neg hb] at h1b
        simp at h1b
  · rcases List.mem_append.mp h1 with h2 | h2
    · revert h2
      cases d.bone with
      | none => intro h2; simp at h2
      | some bv =>
        intro h2
        have h2b : a ∈ (if pyTruthy bv = true then
            [ParentAssign.setParentTypeBone, ParentAssign.setParentBone bv] ++
            ((if hh = true then [ParentAssign.setHead (d.bhead.getD PyValue.pynone)] else []) ++
             (if ht = true then [ParentAssign.setTail (d.btail.getD PyValue.pynone)] else [])) else
            []) := h2
        by_cases hb : pyTruthy bv = true
        · rw [if_pos hb] at h2b
          simp only [List.cons_append, List.nil_append, List.mem_cons,
            List.mem_append] at h2b
          rcases h2b with rfl | rfl | h5 | h5
          · rfl
          · rfl
          · by_cases hhh : hh = true
            · rw [if_pos hhh] at h5
              rcases List.mem_singleton.mp h5 with rfl
              rfl
            · rw [if_neg hhh] at h5
              simp at h5
          · by_cases hht : ht = true
            · rw [if_pos hht] at h5
              rcases List.mem_singleton.mp h5 with rfl
              rfl
            · rw [if_neg hht] at h5
              simp at h5
        · rw [if_neg hb] at h2b
          simp at h2b
    · revert h2
      cases d.inv with
      | none => intro h2; simp at h2
      | some iv =>
        intro h2
        have h2b : a ∈ (if pyTruthy iv = true then [ParentAssign.setInverse iv] else []) := h2
        by_cases hb : pyTruthy iv = true
        · rw [if_pos hb] at h2b
          rcases List.mem_singleton.mp h2b with rfl
          rfl
        · rw [if_neg hb] at h2b
          simp at h2b

theorem resolve_parent_found (objId : Nat) (d : HierData) (reg : List (List Char × Nat))
    (hh ht : Bool) (s : List Char) (pid : Nat)
    (hp : d.parent = some (PyValue.str s)) (hs : s ≠ [])
    (hlk : reg.lookup s = some pid) :
    assigns_of (resolve_parent objId d reg hh ht) =
      (if pid ≠ objId then [ParentAssign.setParent pid] else []) ++
      ((match d.ptype with
        | some tv => if pyTruthy tv then [ParentAssign.setParentType tv] else []
        | none => []) ++
       ((match d.bone with
         | some bv =>
           if pyTruthy bv then
             [ParentAssign.setParentTypeBone, ParentAssign.setParentBone bv] ++
             ((if hh then [ParentAssign.setHead (d.bhead.getD PyValue.pynone)] else []) ++
              (if ht then [ParentAssign.setTail (d.btail.getD PyValue.pynone)] else []))
           else []
         | none => []) ++
        (match d.inv with
         | some iv => if pyTruthy iv then [ParentAssign.setInverse iv] else []
         | none => []))) := by
  have htr : pyTruthy (PyValue.str s) = true := by
    show (!s.isEmpty) = true
    rw [isEmpty_false_of_ne_nil hs]
    rfl
  simp only [resolve_parent, hp, htr, if_true, hlk, assigns_of]
  simp only [List.append_assoc]

/-- C10: no object is ever assigned itself as its own parent. When an object's
recorded parent name resolves in the object registry to the object itself, the
parent pass performs no parent assignment at all (though the other parent
related fields are still applied); when the name resolves to a different
object, that object is assigned as the parent. -/
theorem c10_no_self_parent (objId : Nat) (d : HierData) (reg : List (List Char × Nat))
    (hh ht : Bool) (s : List Char)
    (hp : d.parent = some (PyValue.str s)) (hs : s ≠ []) :
    (reg.lookup s = some objId →
      ∀ a ∈ assigns_of (resolve_parent objId d reg hh ht), is_set_parent a = false) ∧
    (∀ pid, reg.lookup s = some pid → pid ≠ objId →
      ParentAssign.setParent pid ∈ assigns_of (resolve_parent objId d reg hh ht)) := by
  constructor
  · intro hlk a ha
    rw [resolve_parent_found objId d reg hh ht s objId hp hs hlk] at ha
    rw [if_neg (fun hne => hne rfl)] at ha
    rw [List.nil_append] at ha
    exact non_parent_assigns d hh ht a ha
  · intro pid hlk hne
    rw [resolve_parent_found objId d reg hh ht s pid hp hs hlk]
    rw [if_pos hne]
    exact List.mem_append_left _ (List.mem_cons_self _ _)

/-- C10 (witness): with the registry mapping name P to the object itself no
parent assignment is made, and with P mapped to a different object the parent
is assigned. -/
theorem c10_witness :
    (∀ a ∈ assigns_of (resolve_parent 0 { parent := some (PyValue.str (chars "P")) }
        [(chars "P", 0)] false false), is_set_parent a = false) ∧
    ParentAssign.setParent 1 ∈ assigns_of (resolve_parent 0
      { parent := some (PyValue.str (chars "P")) } [(chars "P", 1)] false false) :=
  ⟨(c10_no_self_parent 0 { parent := some (PyValue.str (chars "P")) } [(chars "P", 0)]
      false false (chars "P") rfl (by decide)).1 rfl,
   (c10_no_self_parent 0 { parent := some (PyValue.str (chars "P")) } [(chars "P", 1)]
      false false (chars "P") rfl (by decide)).2 1 rfl (by decide)⟩

theorem mem_rna_loop_props (e : BEntity) (r : PropXml) (hr : r ∈ rna_loop_props e) :
    r.pname ∉ skip_props_for (rotModeStr e) := by
  unfold rna_loop_props at hr
  rcases List.mem_filterMap.mp hr with ⟨p, hp, hemit⟩
  unfold emit_rna_prop at hemit
  by_cases hb : (p.is_readonly || decide (p.identifier ∈ skip_props_for (rotModeStr e))) = true
  · rw [if_pos hb] at hemit
    cases hemit
  · rw [if_neg hb] at hemit
    by_cases h2 : (get_prop_info p.read p.rtype).2.1 = chars "POINTER" ∧
        ((get_prop_info p.read p.rtype).1 = chars "None" ∨
         (get_prop_info p.read p.rtype).1 = [])
    · rw [if_pos h2] at hemit
      cases hemit
    · rw [if_neg h2] at hemit
      rcases Option.some.inj hemit with rfl
      show p.identifier ∉ skip_props_for (rotModeStr e)
      intro hmem
      apply hb
      rw [Bool.or_eq_true, decide_eq_true_eq]
      exact Or.inr hmem

/-- C5 (amended): the generic RNA property loop of _write_rna_properties emits
only the rotation representation matching the declared rotation mode — in
quaternion mode it never emits an Euler or axis angle record, in axis angle
mode never an Euler or quaternion record, and in the Euler modes never a
quaternion or axis angle record. The explicit transform block, however, always
emits rotation_euler and rotation_quaternion records whenever the entity has
those attributes, regardless of mode, so the claim does not hold of the whole
Properties element. -/
theorem c5_rotation_exclusion_amended (e : BEntity) :
    (rotModeStr e = chars "QUATERNION" →
      ∀ r ∈ rna_loop_props e, r.pname ≠ chars "rotation_euler" ∧
        r.pname ≠ chars "rotation_axis_angle") ∧
    (rotModeStr e = chars "AXIS_ANGLE" →
      ∀ r ∈ rna_loop_props e, r.pname ≠ chars "rotation_euler" ∧
        r.pname ≠ chars "rotation_quaternion") ∧
    (rotModeStr e ≠ chars "QUATERNION" → rotModeStr e ≠ chars "AXIS_ANGLE" →
      ∀ r ∈ rna_loop_props e, r.pname ≠ chars "rotation_quaternion" ∧
        r.pname ≠ chars "rotation_axis_angle") := by
  refine ⟨?_, ?_, ?_⟩
  · intro hmode r hr
    have hn := mem_rna_loop_props e r hr
    rw [hmode] at hn
    constructor
    · intro he
      rw [he] at hn
      exact hn (by decide)
    · intro he
      rw [he] at hn
      exact hn (by decide)
  · intro hmode r hr
    have hn := mem_rna_loop_props e r hr
    rw [hmode] at hn
    constructor
    · intro he
      rw [he] at hn
      exact hn (by decide)
    · intro he
      rw [he] at hn
      exact hn (by decide)
  · intro hq ha r hr
    have hn := mem_rna_loop_props e r hr
    unfold skip_props_for at hn
    rw [if_neg hq, if_neg ha] at hn
    constructor
    · intro he
      rw [he] at hn
      exact hn (by decide)
    · intro he
      rw [he] at hn
      exact hn (by decide)

/-- C5 (counterexample): an entity in QUATERNION rotation mode that has a
rotation_euler attribute — as every host object does — still gets a
rotation_euler Prop record in its emitted Properties, coming from the explicit
transform block, refuting the claim as stated for the whole element. -/
theorem c5_counterexample :
    rotModeStr ⟨some (chars "QUATERNION"), none, some [⟨0, 0⟩, ⟨0, 0⟩, ⟨0, 0⟩], none, []⟩ =
      chars "QUATERNION" ∧
    (write_rna_properties
        ⟨some (chars "QUATERNION"), none, some [⟨0, 0⟩, ⟨0, 0⟩, ⟨0, 0⟩], none, []⟩).any
      (fun r => decide (r.pname = chars "rotation_euler")) = true :=
  ⟨rfl, rfl⟩

/-- C5 (witness): the amended loop exclusion applied to a concrete entity in
quaternion mode with one rotation_euler RNA property slot — the loop emits
no record for it. -/
theorem c5_witness :
    ∀ r ∈ rna_loop_props ⟨some (chars "QUATERNION"), none, none, none,
        [⟨chars "rotation_euler", chars "FLOAT", false,
          ReadRes.ok (PyValue.euler [⟨0, 0⟩, ⟨0, 0⟩, ⟨0, 0⟩])⟩]⟩,
      r.pname ≠ chars "rotation_euler" ∧ r.pname ≠ chars "rotation_axis_angle" :=
  (c5_rotation_exclusion_amended
    ⟨some (chars "QUATERNION"), none, none, none,
      [⟨chars "rotation_euler", chars "FLOAT", false,
        ReadRes.ok (PyValue.euler [⟨0, 0⟩, ⟨0, 0⟩, ⟨0, 0⟩])⟩]⟩).1 rfl

/-- C9: a pointer typed property whose value is absent (the None object) or an
entity with an empty name produces no Prop record at all from the generic
loop — the emit step skips it rather than writing an explicit None value. -/
theorem c9_empty_pointer_skipped (skips : List (List Char)) (p : RnaProp)
    (ht : p.rtype = chars "POINTER")
    (hv : p.read = ReadRes.ok PyValue.pynone ∨ p.read = ReadRes.ok (PyValue.entity [])) :
    emit_rna_prop skips p = none := by
  unfold emit_rna_prop
  by_cases hb : (p.is_readonly || decide (p.identifier ∈ skips)) = true
  · rw [if_pos hb]
  · rw [if_neg hb]
    rcases hv with hv | hv <;> rw [hv, ht] <;> rfl

/-- C9 (witness): a non skipped pointer property reading the None object emits
nothing. -/
theorem c9_witness :
    emit_rna_prop [] ⟨chars "active_material", chars "POINTER", false,
      ReadRes.ok PyValue.pynone⟩ = none :=
  c9_empty_pointer_skipped []
    ⟨chars "active_material", chars "POINTER", false, ReadRes.ok PyValue.pynone⟩
    rfl (Or.inl rfl)

theorem fsi_none {n : Nat} (g : SGraph n) (v : Finset (Fin n)) :
    find_source_image g none v = (none, 0) := by
  simp only [find_source_image]

theorem fsi_visited {n : Nat} (g : SGraph n) (i : Fin n) (v : Finset (Fin n)) (h : i ∈ v) :
    find_source_image g (some i) v = (none, 0) := by
  simp only [find_source_image]
  rw [dif_pos h]

theorem fsi_tex {n : Nat} (g : SGraph n) (i : Fin n) (v : Finset (Fin n)) (h : i ∉ v)
    (htex : (g.nodes i).ntype = chars "TEX_IMAGE") :
    find_source_image g (some i) v = ((g.nodes i).image, 1) := by
  simp only [find_source_image]
  rw [dif_neg h, if_pos htex]

theorem fsi_no_next {n : Nat} (g : SGraph n) (i : Fin n) (v : Finset (Fin n)) (h : i ∉ v)
    (htex : (g.nodes i).ntype ≠ chars "TEX_IMAGE") (hns : nextSocket g i = none) :
    find_source_image g (some i) v = (none, 1) := by
  simp only [find_source_image]
  rw [dif_neg h, if_neg htex, hns]

theorem fsi_next {n : Nat} (g : SGraph n) (i : Fin n) (v : Finset (Fin n)) (k : Nat)
    (h : i ∉ v) (htex : (g.nodes i).ntype ≠ chars "TEX_IMAGE")
    (hns : nextSocket g i = some k) :
    find_source_image g (some i) v =
      ((find_source_image g (g.linkFrom i k) (insert i v)).1,
       (find_source_image g (g.linkFrom i k) (insert i v)).2 + 1) := by
  simp only [find_source_image]
  rw [dif_neg h, if_neg htex, hns]

theorem fsi_card_lt {n : Nat} (i : Fin n) (v : Finset (Fin n)) (h : i ∉ v) : v.card < n := by
  have h1 : (insert i v).card = v.card + 1 := Finset.card_insert_of_not_mem h
  have h2 : (insert i v).card ≤ n := by
    have h3 := Finset.card_le_univ (insert i v)
    simpa using h3
  omega

theorem fsi_steps_aux {n : Nat} (g : SGraph n) :
    ∀ (m : Nat) (l : Option (Fin n)) (v : Finset (Fin n)), n - v.card ≤ m →
      (find_source_image g l v).2 ≤ n - v.card := by
  intro m
  induction m with
  | zero =>
    intro l v hm
    cases l with
    | none => rw [fsi_none]; exact Nat.zero_le _
    | some i =>
      by_cases hi : i ∈ v
      · rw [fsi_visited g i v hi]; exact Nat.zero_le _
      · exfalso
        have hlt := fsi_card_lt i v hi
        omega
  | succ m ih =>
    intro l v hm
    cases l with
    | none => rw [fsi_none]; exact Nat.zero_le _
    | some i =>
      by_cases hi : i ∈ v
      · rw [fsi_visited g i v hi]; exact Nat.zero_le _
      · have hlt := fsi_card_lt i v hi
        have hcard : (insert i v).card = v.card + 1 := Finset.card_insert_of_not_mem hi
        by_cases htex : (g.nodes i).ntype = chars "TEX_IMAGE"
        · rw [fsi_tex g i v hi htex]
          show 1 ≤ n - v.card
          omega
        · cases hns : nextSocket g i with
          | none =>
            rw [fsi_no_next g i v hi htex hns]
            show 1 ≤ n - v.card
            omega
          | some k =>
            rw [fsi_next g i v k hi htex hns]
            have hrec := ih (g.linkFrom i k) (insert i v) (by rw [hcard]; omega)
            rw [hcard] at hrec
            omega

/-- C6: cycle safe upstream source resolution. The traversal of
_find_source_image is a total function (it is defined by well founded
recursion on the unvisited node count, so it terminates on every graph,
cyclic ones included); its step count — the number of nodes taken off link
chains — never exceeds the node count of the graph, so each node is visited
at most once; and reaching a node already in the visited set returns the no
source result immediately, in zero further steps. -/
theorem c6_cycle_safe_traversal :
    (∀ (n : Nat) (g : SGraph n) (l : Option (Fin n)) (v : Finset (Fin n)),
      (find_source_image g l v).2 ≤ n) ∧
    (∀ (n : Nat) (g : SGraph n) (i : Fin n) (v : Finset (Fin n)),
      find_source_image g (some i) (insert i v) = (none, 0)) := by
  constructor
  · intro n g l v
    exact le_trans (fsi_steps_aux g (n - v.card) l v le_rfl) (Nat.sub_le n v.card)
  · intro n g i v
    exact fsi_visited g i (insert i v) (Finset.mem_insert_self i v)

/-- C7 (amended): a document missing a required top level section (Libraries
or Scenes), or carrying one with no children (falsy under ElementTree), does
not abort the import run: the corresponding phase is silently skipped and the
run completes, reaching both resolution passes. -/
theorem c7_missing_sections_tolerated (doc : XmlDoc)
    (hlib : doc.libraries = none ∨ doc.libraries = some [])
    (hsc : doc.scenes = none ∨ doc.scenes = some []) :
    importFromXML doc = .ok ⟨[], [], true, true⟩ := by
  have hl : import_libraries doc = [] := by
    rcases hlib with h | h <;> simp only [import_libraries, h, List.isEmpty_nil, if_true]
  rcases hsc with h | h
  · simp only [importFromXML, h, hl]
  · simp only [importFromXML, h, hl, List.isEmpty_nil, if_true]

/-- C7 (counterexample): the document with both top level sections missing
makes the run complete normally — import_libraries returns after its falsy
check, the scene loop is skipped, both resolution passes run — rather than
abort with a failure, refuting the claim that this class is fatal. -/
theorem c7_counterexample :
    importFromXML ⟨none, none⟩ = Except.ok ⟨[], [], true, true⟩ ∧
    importFromXML ⟨none, none⟩ ≠ Except.error (chars "missing required section") :=
  ⟨rfl, fun h => nomatch h⟩

/-- C7 (witness): a document with an empty Libraries element and no Scenes
element completes with an empty trace. -/
theorem c7_witness : importFromXML ⟨some [], none⟩ = Except.ok ⟨[], [], true, true⟩ :=
  c7_missing_sections_tolerated ⟨some [], none⟩ (Or.inr rfl) (Or.inl rfl)

/-- C8 (amended): deferred link resolution searches the registries in the
fixed order objects, meshes, materials, actions, armatures, cameras, lights,
images, and assigns the first match; a name no registry knows leaves the link
unset silently — the source prints no warning in that case — and every link is
consumed exactly once by the single filter pass, never retried. -/
theorem c8_priority_order_amended (r : Registries) (nm : List Char) :
    (∀ e, r.objects.lookup nm = some e → lookup_target r nm = some (EntKind.object, e)) ∧
    (r.objects.lookup nm = none → ∀ e, r.meshes.lookup nm = some e →
      lookup_target r nm = some (EntKind.mesh, e)) ∧
    (r.objects.lookup nm = none → r.meshes.lookup nm = none →
      ∀ e, r.materials.lookup nm = some e →
      lookup_target r nm = some (EntKind.material, e)) ∧
    (r.objects.lookup nm = none → r.meshes.lookup nm = none →
      r.materials.lookup nm = none → ∀ e, r.actions.lookup nm = some e →
      lookup_target r nm = some (EntKind.action, e)) ∧
    (r.objects.lookup nm = none → r.meshes.lookup nm = none →
      r.materials.lookup nm = none → r.actions.lookup nm = none →
      ∀ e, r.armatures.lookup nm = some e →
      lookup_target r nm = some (EntKind.armature, e)) ∧
    (r.objects.lookup nm = none → r.meshes.lookup nm = none →
      r.materials.lookup nm = none → r.actions.lookup nm = none →
      r.armatures.lookup nm = none → ∀ e, r.cameras.lookup nm = some e →
      lookup_target r nm = some (EntKind.camera, e)) ∧
    (r.objects.lookup nm = none → r.meshes.lookup nm = none →
      r.materials.lookup nm = none → r.actions.lookup nm = none →
      r.armatures.lookup nm = none → r.cameras.lookup nm = none →
      ∀ e, r.lights.lookup nm = some e →
      lookup_target r nm = some (EntKind.light, e)) ∧
    (r.objects.lookup nm = none → r.meshes.lookup nm = none →
      r.materials.lookup nm = none → r.actions.lookup nm = none →
      r.armatures.lookup nm = none → r.cameras.lookup nm = none →
      r.lights.lookup nm = none → ∀ e, r.images.lookup nm = some e →
      lookup_target r nm = some (EntKind.image, e)) ∧
    (r.objects.lookup nm = none → r.meshes.lookup nm = none →
      r.materials.lookup nm = none → r.actions.lookup nm = none →
      r.armatures.lookup nm = none → r.cameras.lookup nm = none →
      r.lights.lookup nm = none → r.images.lookup nm = none →
      lookup_target r nm = none) ∧
    (∀ links, (resolve_links r links).2 = []) ∧
    (∀ links, (resolve_links r links).1 =
      links.filterMap (fun l => (lookup_target r l.2.2).map (fun t => (l.1, l.2.1, t)))) ∧
    (∀ (owner : Nat) (pname : List Char), lookup_target r nm = none →
      resolve_links r [(owner, pname, nm)] = ([], [])) := by
  refine ⟨?_, ?_, ?_, ?_, ?_, ?_, ?_, ?_, ?_, ?_, ?_, ?_⟩
  · intro e he
    simp only [lookup_target, he]
  · intro h1 e he
    simp only [lookup_target, h1, he]
  · intro h1 h2 e he
    simp only [lookup_target, h1, h2, he]
  · intro h1 h2 h3 e he
    simp only [lookup_target, h1, h2, h3, he]
  · intro h1 h2 h3 h4 e he
    simp only [lookup_target, h1, h2, h3, h4, he]
  · intro h1 h2 h3 h4 h5 e he
    simp only [lookup_target, h1, h2, h3, h4, h5, he]
  · intro h1 h2 h3 h4 h5 h6 e he
    simp only [lookup_target, h1, h2, h3, h4, h5, h6, he]
  · intro h1 h2 h3 h4 h5 h6 h7 e he
    simp only [lookup_target, h1, h2, h3, h4, h5, h6, h7, he]
  · intro h1 h2 h3 h4 h5 h6 h7 h8
    simp only [lookup_target, h1, h2, h3, h4, h5, h6, h7, h8]
  · intro links
    rfl
  · intro links
    rfl
  · intro owner pname h
    simp [resolve_links, h]

/-- C8 (counterexample): with every registry empty, resolving a link whose
target name is unknown leaves the link unassigned and emits no warning — the
source's resolve_links prints nothing on a miss, refuting the claim that the
link is left unset with a warning. -/
theorem c8_counterexample :
    resolve_links ⟨[], [], [], [], [], [], [], []⟩ [(0, chars "data", chars "Ghost")] =
      ([], []) := rfl

/-- C8 (witness): with a mesh and a material sharing the name X and no object
of that name, the mesh wins by kind priority; and warnings are always empty. -/
theorem c8_witness :
    lookup_target ⟨[], [(chars "X", 1)], [(chars "X", 2)], [], [], [], [], []⟩ (chars "X") =
      some (EntKind.mesh, 1) ∧
    (resolve_links ⟨[], [(chars "X", 1)], [(chars "X", 2)], [], [], [], [], []⟩
      [(5, chars "data", chars "X")]).2 = [] :=
  ⟨(c8_priority_order_amended
      ⟨[], [(chars "X", 1)], [(chars "X", 2)], [], [], [], [], []⟩ (chars "X")).2.1 rfl 1 rfl,
   (c8_priority_order_amended
      ⟨[], [(chars "X", 1)], [(chars "X", 2)], [], [], [], [], []⟩
      (chars "X")).2.2.2.2.2.2.2.2.2.1 [(5, chars "data", chars "X")]⟩

end Blixemel
